import Mathlib

/- Verification of the Servo display-list to WebRender conversion
   (src/components/layout/display_list/webrender_helpers.rs).

   The embedding models app units (Au) as integers, layout (pixel) scalars as
   rationals, and the WebRender DisplayListBuilder as a command trace plus the
   internal clip stack and fresh-id counters.  Rust panics (indexing panics,
   the unreachable! in get_id, debug_assert! failures) are modelled with
   Except: conversion either returns the final builder or the error that
   aborted it.  The debug flag selects whether debug_assert! checks run. -/

set_option maxHeartbeats 1000000

/-- App units, 1/60 of a pixel, stored as an integer (external app_units crate). -/
abbrev Au := Int

/-- Au::to_f32_px : app units to pixels; the f32 value is modelled as a rational. -/
def auToPx (a : Au) : Rat := (a : Rat) / 60

/-- A point with app-unit coordinates. -/
structure PointAu where
  x : Au
  y : Au
deriving DecidableEq

/-- A size with app-unit dimensions. -/
structure SizeAu where
  width : Au
  height : Au
deriving DecidableEq

/-- A rectangle with app-unit coordinates. -/
structure RectAu where
  origin : PointAu
  size : SizeAu
deriving DecidableEq

/-- A point in layout (pixel) coordinates. -/
structure PointL where
  x : Rat
  y : Rat
deriving DecidableEq

/-- A size in layout (pixel) coordinates. -/
structure SizeL where
  width : Rat
  height : Rat
deriving DecidableEq

/-- A rectangle in layout (pixel) coordinates. -/
structure RectL where
  origin : PointL
  size : SizeL
deriving DecidableEq

def PointAu.to_layout (p : PointAu) : PointL :=
  ⟨auToPx p.x, auToPx p.y⟩

def SizeAu.to_layout (s : SizeAu) : SizeL :=
  ⟨auToPx s.width, auToPx s.height⟩

def RectAu.to_layout (r : RectAu) : RectL :=
  ⟨r.origin.to_layout, r.size.to_layout⟩

/-- BorderRadii over app units (gfx display list side). -/
structure BorderRadiiAu where
  top_left : SizeAu
  top_right : SizeAu
  bottom_left : SizeAu
  bottom_right : SizeAu
deriving DecidableEq

/-- webrender_api::BorderRadius (layout units). -/
structure BorderRadius where
  top_left : SizeL
  top_right : SizeL
  bottom_left : SizeL
  bottom_right : SizeL
deriving DecidableEq

/-- ToBorderRadius::to_border_radius for BorderRadii of Au. -/
def BorderRadiiAu.to_border_radius (r : BorderRadiiAu) : BorderRadius :=
  ⟨r.top_left.to_layout, r.top_right.to_layout, r.bottom_left.to_layout,
    r.bottom_right.to_layout⟩

/-- webrender_api::ClipMode. -/
inductive ClipMode
  | Clip
  | ClipOut
deriving DecidableEq

/-- Modelled from the spec: one rounded-rect complex sub-region of a clipping
    region (gfx display-list type, outside src/). -/
structure ComplexClipAu where
  rect : RectAu
  radii : BorderRadiiAu
deriving DecidableEq

/-- webrender_api::ComplexClipRegion. -/
structure ComplexClipRegion where
  rect : RectL
  radii : BorderRadius
  mode : ClipMode
deriving DecidableEq

/-- Modelled from the spec: a clipping region, a main rect plus an ordered list
    of rounded-rect complex sub-regions (gfx display-list type, outside src/). -/
structure ClippingRegion where
  main : RectAu
  complex : List ComplexClipAu
deriving DecidableEq

/-- ToWebRenderClip::get_complex_clips: every complex sub-region becomes a
    webrender complex clip region with mode Clip (intersect). -/
def ClippingRegion.get_complex_clips (c : ClippingRegion) : List ComplexClipRegion :=
  c.complex.map (fun cc => ⟨cc.rect.to_layout, cc.radii.to_border_radius, ClipMode.Clip⟩)

/-- webrender_api::ClipId: the root scroll node of a pipeline, or an id
    allocated by the builder for a defined node. -/
inductive ClipId
  | root_scroll_node (pipeline : Nat)
  | dynamic (n : Nat)
deriving DecidableEq

/-- webrender_api::ClipAndScrollInfo: a scroll node id and an optional
    clip node id; the unit of active context the stream tracks. -/
structure ClipAndScrollInfo where
  scroll_node_id : ClipId
  clip_node_id : Option ClipId
deriving DecidableEq

/-- ClipAndScrollInfo::simple. -/
def ClipAndScrollInfo.simple (id : ClipId) : ClipAndScrollInfo :=
  ⟨id, none⟩

/-- ClipAndScrollInfo::new. -/
def ClipAndScrollInfo.new (scroll clip : ClipId) : ClipAndScrollInfo :=
  ⟨scroll, some clip⟩

/-- LocalClip of an item (a rect, or a rect with a rounded sub-region). -/
inductive LocalClip
  | rect (r : RectL)
  | roundedRect (r : RectL) (c : ComplexClipRegion)
deriving DecidableEq

/-- Modelled from the spec: the hit-test metadata of an item base (opaque node
    identity plus optional cursor), a gfx display-list type outside src/. -/
structure DisplayItemMetadata where
  node : Nat
  pointing : Option Nat
deriving DecidableEq

/-- Modelled from the spec: the clipping-and-scrolling reference of an item
    base, a scrolling node index and an optional clipping node index. -/
structure ClippingAndScrolling where
  scrolling : Nat
  clipping : Option Nat
deriving DecidableEq

/-- Modelled from the spec: the base record shared by every display item. -/
structure BaseDisplayItem where
  bounds : RectAu
  local_clip : LocalClip
  metadata : DisplayItemMetadata
  clipping_and_scrolling : ClippingAndScrolling
deriving DecidableEq

/-- webrender_api::LayoutPrimitiveInfo. -/
structure LayoutPrimitiveInfo where
  rect : RectL
  local_clip : LocalClip
  is_backface_visible : Bool
  tag : Option (Nat × Nat)
deriving DecidableEq

/-- LayoutPrimitiveInfo::new(rect): local clip defaults to the rect itself,
    backface visible, no tag. -/
def LayoutPrimitiveInfo.ofRect (r : RectL) : LayoutPrimitiveInfo :=
  ⟨r, LocalClip.rect r, true, none⟩

/-- Modelled from the spec: one shaped glyph as consumed from the external
    text-shaping system (id, advance, optional offset, char_is_space). -/
structure GlyphData where
  id : Nat
  advance : Au
  offset : Option PointAu
  char_is_space : Bool
deriving DecidableEq

/-- Modelled from the spec: one natural word slice in visual order, with its
    glyph store restricted to the slice range, and the store whitespace flag. -/
structure GlyphSlice where
  glyphs : List GlyphData
  is_whitespace : Bool
deriving DecidableEq

/-- Modelled from the spec: a text run as consumed here; slices is the result
    of natural_word_slices_in_visual_order restricted to the item range. -/
structure TextRunModel where
  slices : List GlyphSlice
  font_key : Nat
  extra_word_spacing : Au
deriving DecidableEq

/-- webrender_api::GlyphInstance. -/
structure GlyphInstance where
  index : Nat
  point : PointL
deriving DecidableEq

/-- SolidColor display item. -/
structure SolidColorDisplayItem where
  base : BaseDisplayItem
  color : Nat
deriving DecidableEq

/-- Text display item. -/
structure TextDisplayItem where
  base : BaseDisplayItem
  text_run : TextRunModel
  baseline_origin : PointAu
  text_color : Nat
deriving DecidableEq

/-- The optionally resolved backend image handle of an image item. -/
structure WebRenderImageInfo where
  key : Option Nat
deriving DecidableEq

/-- Image display item. -/
structure ImageDisplayItem where
  base : BaseDisplayItem
  webrender_image : WebRenderImageInfo
  stretch_size : SizeL
  tile_spacing : SizeL
  image_rendering : Nat
deriving DecidableEq

/-- A linear gradient descriptor (start point, end point, stops, extend mode). -/
structure Gradient where
  start_point : PointL
  end_point : PointL
  stops : List Nat
  extend_mode : Nat
deriving DecidableEq

/-- A radial gradient descriptor (center, radius, stops, extend mode). -/
structure RadialGradient where
  center : PointL
  radius : SizeL
  stops : List Nat
  extend_mode : Nat
deriving DecidableEq

/-- A linear gradient border detail on the source side. -/
structure GradientBorder where
  gradient : Gradient
  outset : Nat
deriving DecidableEq

/-- A radial gradient border detail on the source side. -/
structure RadialGradientBorder where
  gradient : RadialGradient
  outset : Nat
deriving DecidableEq

/-- gfx BorderDetails: the four kinds of border detail of a border item. -/
inductive BorderDetails
  | Normal (border : Nat)
  | Image (image : Nat)
  | Gradient (g : GradientBorder)
  | RadialGradient (g : RadialGradientBorder)
deriving DecidableEq

/-- Border display item. -/
structure BorderDisplayItem where
  base : BaseDisplayItem
  border_widths : Nat
  details : BorderDetails
deriving DecidableEq

/-- Gradient display item. -/
structure GradientDisplayItem where
  base : BaseDisplayItem
  gradient : Gradient
  tile : SizeL
  tile_spacing : SizeL
deriving DecidableEq

/-- RadialGradient display item. -/
structure RadialGradientDisplayItem where
  base : BaseDisplayItem
  gradient : RadialGradient
  tile : SizeL
  tile_spacing : SizeL
deriving DecidableEq

/-- Line display item. -/
structure LineDisplayItem where
  base : BaseDisplayItem
  color : Nat
  style : Nat
deriving DecidableEq

/-- BoxShadow display item. -/
structure BoxShadowDisplayItem where
  base : BaseDisplayItem
  box_bounds : RectL
  offset : PointL
  color : Nat
  blur_radius : Rat
  spread_radius : Rat
  border_radius : Nat
  clip_mode : Nat
deriving DecidableEq

/-- PushTextShadow display item. -/
structure PushTextShadowDisplayItem where
  base : BaseDisplayItem
  blur_radius : Rat
  offset : PointL
  color : Nat
deriving DecidableEq

/-- PopAllTextShadows display item. -/
structure PopAllTextShadowsDisplayItem where
  base : BaseDisplayItem
deriving DecidableEq

/-- Iframe display item. -/
structure IframeDisplayItem where
  base : BaseDisplayItem
  iframe : Nat
deriving DecidableEq

/-- gfx StackingContextType: the real kind or a grouping-only pseudo kind. -/
inductive StackingContextType
  | Real
  | PseudoPositioned
  | PseudoFloat
deriving DecidableEq

/-- Modelled from the spec: the stacking context descriptor carried by a
    PushStackingContext item (gfx display-list type, outside src/). -/
structure StackingContext where
  context_type : StackingContextType
  bounds : RectAu
  scroll_policy : Nat
  transform : Option Nat
  transform_style : Nat
  perspective : Option Nat
  mix_blend_mode : Nat
  filters : List Nat
deriving DecidableEq

/-- PushStackingContext display item. -/
structure PushStackingContextItem where
  base : BaseDisplayItem
  stacking_context : StackingContext
deriving DecidableEq

/-- PopStackingContext display item. -/
structure PopStackingContextItem where
  base : BaseDisplayItem
deriving DecidableEq

/-- The sticky frame payload: margins and both offset bounds. -/
structure StickyFrameData where
  margins : Nat
  vertical_offset_bounds : Nat
  horizontal_offset_bounds : Nat
deriving DecidableEq

/-- gfx ClipScrollNodeType. -/
inductive ClipScrollNodeType
  | Clip
  | ScrollFrame (scroll_sensitivity : Nat)
  | StickyFrame (data : StickyFrameData)
deriving DecidableEq

/-- Modelled from the spec: a clip/scroll node descriptor of the node array
    (gfx display-list type, outside src/). -/
structure ClipScrollNode where
  id : Option ClipId
  parent_index : Nat
  clip : ClippingRegion
  content_rect : RectL
  node_type : ClipScrollNodeType
deriving DecidableEq

/-- DefineClipScrollNode display item. -/
structure DefineClipScrollNodeItem where
  base : BaseDisplayItem
  node_index : Nat
deriving DecidableEq

/-- gfx DisplayItem: the closed set of display item variants. -/
inductive DisplayItem
  | SolidColor (item : SolidColorDisplayItem)
  | Text (item : TextDisplayItem)
  | Image (item : ImageDisplayItem)
  | Border (item : BorderDisplayItem)
  | Gradient (item : GradientDisplayItem)
  | RadialGradient (item : RadialGradientDisplayItem)
  | Line (item : LineDisplayItem)
  | BoxShadow (item : BoxShadowDisplayItem)
  | PushTextShadow (item : PushTextShadowDisplayItem)
  | PopAllTextShadows (item : PopAllTextShadowsDisplayItem)
  | Iframe (item : IframeDisplayItem)
  | PushStackingContext (item : PushStackingContextItem)
  | PopStackingContext (item : PopStackingContextItem)
  | DefineClipScrollNode (item : DefineClipScrollNodeItem)
deriving DecidableEq

/-- DisplayItem::base. -/
def DisplayItem.base : DisplayItem → BaseDisplayItem
  | .SolidColor item => item.base
  | .Text item => item.base
  | .Image item => item.base
  | .Border item => item.base
  | .Gradient item => item.base
  | .RadialGradient item => item.base
  | .Line item => item.base
  | .BoxShadow item => item.base
  | .PushTextShadow item => item.base
  | .PopAllTextShadows item => item.base
  | .Iframe item => item.base
  | .PushStackingContext item => item.base
  | .PopStackingContext item => item.base
  | .DefineClipScrollNode item => item.base

/-- Modelled from the spec: the source display list, an overall bounding
    rectangle, the ordered item sequence and the node array. -/
structure DisplayList where
  bounds : RectAu
  list : List DisplayItem
  clip_scroll_nodes : List ClipScrollNode
deriving DecidableEq

/-- WebRenderDisplayItemConverter::prim_info. -/
def DisplayItem.prim_info (it : DisplayItem) : LayoutPrimitiveInfo :=
  { rect := it.base.bounds.to_layout
    local_clip := it.base.local_clip
    is_backface_visible := true
    tag := it.base.metadata.pointing.map (fun cursor => (it.base.metadata.node, cursor)) }

/-- webrender_api::Shadow. -/
structure Shadow where
  blur_radius : Rat
  offset : PointL
  color : Nat
deriving DecidableEq

/-- webrender_api::LineOrientation. -/
inductive LineOrientation
  | Horizontal
  | Vertical
deriving DecidableEq

/-- webrender_api::BorderDetails after translation: gradient kinds carry the
    registered gradient handle and the preserved outset. -/
inductive WRBorderDetails
  | Normal (border : Nat)
  | Image (image : Nat)
  | Gradient (handle : Nat) (outset : Nat)
  | RadialGradient (handle : Nat) (outset : Nat)
deriving DecidableEq

/-- One call into the backend builder, recorded in emission order. -/
inductive BuilderCmd
  | pushClipAndScrollInfo (info : ClipAndScrollInfo)
  | popClipId
  | pushClipId (id : ClipId)
  | pushRect (info : LayoutPrimitiveInfo) (color : Nat)
  | pushText (info : LayoutPrimitiveInfo) (glyphs : List GlyphInstance) (font_key : Nat)
      (color : Nat) (glyph_options : Option Nat)
  | pushImage (info : LayoutPrimitiveInfo) (stretch_size : SizeL) (tile_spacing : SizeL)
      (image_rendering : Nat) (key : Nat)
  | createGradient (start_point : PointL) (end_point : PointL) (stops : List Nat)
      (extend_mode : Nat) (handle : Nat)
  | createRadialGradient (center : PointL) (radius : SizeL) (stops : List Nat)
      (extend_mode : Nat) (handle : Nat)
  | pushBorder (info : LayoutPrimitiveInfo) (widths : Nat) (details : WRBorderDetails)
  | pushGradient (info : LayoutPrimitiveInfo) (handle : Nat) (tile : SizeL)
      (tile_spacing : SizeL)
  | pushRadialGradient (info : LayoutPrimitiveInfo) (handle : Nat) (tile : SizeL)
      (tile_spacing : SizeL)
  | pushLine (info : LayoutPrimitiveInfo) (thickness : Rat) (orientation : LineOrientation)
      (color : Nat) (style : Nat)
  | pushBoxShadow (info : LayoutPrimitiveInfo) (box_bounds : RectL) (offset : PointL)
      (color : Nat) (blur_radius : Rat) (spread_radius : Rat) (border_radius : Nat)
      (clip_mode : Nat)
  | pushShadow (info : LayoutPrimitiveInfo) (shadow : Shadow)
  | popAllShadows
  | pushIframe (info : LayoutPrimitiveInfo) (pipeline : Nat)
  | pushStackingContext (info : LayoutPrimitiveInfo) (scroll_policy : Nat)
      (transform : Option Nat) (transform_style : Nat) (perspective : Option Nat)
      (mix_blend_mode : Nat) (filters : List Nat)
  | popStackingContext
  | defineClip (id : ClipId) (parent : ClipId) (rect : RectL)
      (complex : List ComplexClipRegion) (image_mask : Option Nat)
  | defineScrollFrame (id : ClipId) (parent : ClipId) (content_rect : RectL)
      (clip_rect : RectL) (complex : List ComplexClipRegion) (image_mask : Option Nat)
      (scroll_sensitivity : Nat)
  | defineStickyFrame (id : ClipId) (rect : RectL) (margins : Nat)
      (vertical_offset_bounds : Nat) (horizontal_offset_bounds : Nat)
      (applied_offset : PointL)
deriving DecidableEq

/-- The backend builder: the recorded command trace, the internal clip stack,
    and fresh-id counters for defined nodes and registered gradients. -/
structure DisplayListBuilder where
  pipeline_id : Nat
  content_size : SizeL
  cmds : List BuilderCmd
  clip_stack : List ClipAndScrollInfo
  next_node_id : Nat
  next_gradient_id : Nat
deriving DecidableEq

/-- Append one builder call to the trace. -/
def DisplayListBuilder.emit (b : DisplayListBuilder) (c : BuilderCmd) : DisplayListBuilder :=
  { b with cmds := b.cmds ++ [c] }

/-- DisplayListBuilder::push_clip_and_scroll_info. -/
def DisplayListBuilder.push_clip_and_scroll_info (b : DisplayListBuilder)
    (info : ClipAndScrollInfo) : DisplayListBuilder :=
  { b with cmds := b.cmds ++ [.pushClipAndScrollInfo info], clip_stack := info :: b.clip_stack }

/-- DisplayListBuilder::pop_clip_id. -/
def DisplayListBuilder.pop_clip_id (b : DisplayListBuilder) : DisplayListBuilder :=
  { b with cmds := b.cmds ++ [.popClipId], clip_stack := b.clip_stack.tail }

/-- DisplayListBuilder::push_clip_id. -/
def DisplayListBuilder.push_clip_id (b : DisplayListBuilder) (id : ClipId) :
    DisplayListBuilder :=
  { b with
    cmds := b.cmds ++ [(.pushClipId id)]
    clip_stack := ClipAndScrollInfo.simple id :: b.clip_stack }

/-- DisplayListBuilder::create_gradient: registers the stop list and returns
    the obtained gradient handle. -/
def DisplayListBuilder.create_gradient (b : DisplayListBuilder) (sp ep : PointL)
    (stops : List Nat) (mode : Nat) : DisplayListBuilder × Nat :=
  let h := b.next_gradient_id
  ({ b with
     cmds := b.cmds ++ [(.createGradient sp ep stops mode h)]
     next_gradient_id := h + 1 }, h)

/-- DisplayListBuilder::create_radial_gradient. -/
def DisplayListBuilder.create_radial_gradient (b : DisplayListBuilder) (center : PointL)
    (radius : SizeL) (stops : List Nat) (mode : Nat) : DisplayListBuilder × Nat :=
  let h := b.next_gradient_id
  ({ b with
     cmds := b.cmds ++ [(.createRadialGradient center radius stops mode h)]
     next_gradient_id := h + 1 }, h)

/-- Allocation of the id a define call returns: the pre-assigned id when the
    node carries one, otherwise a fresh builder-chosen id. -/
def DisplayListBuilder.alloc_clip_id (b : DisplayListBuilder) (requested : Option ClipId) :
    DisplayListBuilder × ClipId :=
  match requested with
  | some id => (b, id)
  | none => ({ b with next_node_id := b.next_node_id + 1 }, ClipId.dynamic b.next_node_id)

/-- DisplayListBuilder::define_clip_with_parent. -/
def DisplayListBuilder.define_clip_with_parent (b : DisplayListBuilder)
    (requested : Option ClipId) (parent : ClipId) (rect : RectL)
    (complex : List ComplexClipRegion) (mask : Option Nat) : DisplayListBuilder × ClipId :=
  let r := b.alloc_clip_id requested
  (r.1.emit (.defineClip r.2 parent rect complex mask), r.2)

/-- DisplayListBuilder::define_scroll_frame_with_parent. -/
def DisplayListBuilder.define_scroll_frame_with_parent (b : DisplayListBuilder)
    (requested : Option ClipId) (parent : ClipId) (content_rect : RectL) (clip_rect : RectL)
    (complex : List ComplexClipRegion) (mask : Option Nat) (sensitivity : Nat) :
    DisplayListBuilder × ClipId :=
  let r := b.alloc_clip_id requested
  (r.1.emit (.defineScrollFrame r.2 parent content_rect clip_rect complex mask sensitivity),
    r.2)

/-- DisplayListBuilder::define_sticky_frame. -/
def DisplayListBuilder.define_sticky_frame (b : DisplayListBuilder)
    (requested : Option ClipId) (rect : RectL) (margins : Nat) (vbounds hbounds : Nat)
    (applied_offset : PointL) : DisplayListBuilder × ClipId :=
  let r := b.alloc_clip_id requested
  (r.1.emit (.defineStickyFrame r.2 rect margins vbounds hbounds applied_offset), r.2)

/-- How a conversion aborts: an out-of-bounds index panic, the unreachable!
    on an unresolved resolution-table entry, or a debug_assert! failure. -/
inductive ConvErr
  | oobIndex
  | unresolvedId
  | assertFailed
deriving DecidableEq

/-- The get_id closure: read a resolution-table entry; an out-of-bounds index
    is an indexing panic, an empty entry is the unreachable! panic. -/
def get_id (clip_ids : List (Option ClipId)) (index : Nat) : Except ConvErr ClipId :=
  match clip_ids.get? index with
  | some (some id) => .ok id
  | some none => .error .unresolvedId
  | none => .error .oobIndex

/-- The mutable traversal state threaded through the item loop: the builder,
    the resolution table and the currently active clip-and-scroll context. -/
structure ConvState where
  builder : DisplayListBuilder
  clipIds : List (Option ClipId)
  current : ClipAndScrollInfo
deriving DecidableEq

/-- Resolution of the merged clip-and-scroll context of an item base: look up
    the scrolling id and the optional clipping id in the resolution table. -/
def resolveContext (clipIds : List (Option ClipId)) (base : BaseDisplayItem) :
    Except ConvErr ClipAndScrollInfo :=
  match get_id clipIds base.clipping_and_scrolling.scrolling with
  | .error e => .error e
  | .ok scrolling_id =>
    match base.clipping_and_scrolling.clipping with
    | none => .ok (ClipAndScrollInfo.simple scrolling_id)
    | some index =>
      match get_id clipIds index with
      | .error e => .error e
      | .ok cid => .ok (ClipAndScrollInfo.new scrolling_id cid)

/-- The context-switch step: when the merged context differs from the active
    one, pop the active context, push the new one and store it as active. -/
def applySwitch (m : ClipAndScrollInfo) (s : ConvState) : ConvState :=
  if m = s.current then s
  else { s with builder := (s.builder.pop_clip_id).push_clip_and_scroll_info m, current := m }

/-- The builder calls the context-switch step emits. -/
def switchCmds (cur m : ClipAndScrollInfo) : List BuilderCmd :=
  if m = cur then [] else [.popClipId, .pushClipAndScrollInfo m]

/-- The advance of one glyph: its base advance, plus the extra word spacing of
    the run when the glyph is an inter-word space. -/
def glyphAdvance (extra : Au) (g : GlyphData) : Au :=
  if g.char_is_space then g.advance + extra else g.advance

/-- The inner glyph loop of the Text arm: push a glyph instance at the current
    origin unless the slice is entirely whitespace, then advance the origin x
    by the glyph advance. -/
def layoutSliceGlyphs (extra : Au) (ws : Bool) :
    List GlyphData → PointAu → List GlyphInstance → PointAu × List GlyphInstance
  | [], origin, acc => (origin, acc)
  | g :: rest, origin, acc =>
    let acc2 :=
      if ws then acc
      else
        let off := g.offset.getD ⟨0, 0⟩
        acc ++ [⟨g.id, ⟨auToPx (origin.x + off.x), auToPx (origin.y + off.y)⟩⟩]
    layoutSliceGlyphs extra ws rest ⟨origin.x + glyphAdvance extra g, origin.y⟩ acc2

/-- The outer slice loop of the Text arm. -/
def layoutSlices (extra : Au) :
    List GlyphSlice → PointAu → List GlyphInstance → PointAu × List GlyphInstance
  | [], origin, acc => (origin, acc)
  | sl :: rest, origin, acc =>
    let r := layoutSliceGlyphs extra sl.is_whitespace sl.glyphs origin acc
    layoutSlices extra rest r.1 r.2

/-- The dispatch on the node type of a DefineClipScrollNode item: Clip and
    ScrollFrame use the define-with-parent builder calls; StickyFrame pushes
    the parent id, defines the sticky frame with a zero initial applied
    offset, and pops the pushed context again. -/
def defineNodeBuilder (b : DisplayListBuilder) (node : ClipScrollNode)
    (parent_id : ClipId) : DisplayListBuilder × ClipId :=
  match node.node_type with
  | .Clip =>
    b.define_clip_with_parent node.id parent_id node.clip.main.to_layout
      node.clip.get_complex_clips none
  | .ScrollFrame sens =>
    b.define_scroll_frame_with_parent node.id parent_id node.content_rect
      node.clip.main.to_layout node.clip.get_complex_clips none sens
  | .StickyFrame data =>
    let b1 := b.push_clip_id parent_id
    let r2 := b1.define_sticky_frame node.id node.clip.main.to_layout data.margins
      data.vertical_offset_bounds data.horizontal_offset_bounds ⟨0, 0⟩
    (r2.1.pop_clip_id, r2.2)

/-- The per-variant translation of one display item, after the context-switch
    step; mirrors the match in DisplayItem::convert_to_webrender. -/
def translateItem (d : Bool) (nodes : List ClipScrollNode) (it : DisplayItem)
    (s : ConvState) : Except ConvErr ConvState :=
  match it with
  | .SolidColor item =>
    .ok { s with builder := s.builder.emit (.pushRect it.prim_info item.color) }
  | .Text item =>
    let r := layoutSlices item.text_run.extra_word_spacing item.text_run.slices
      item.baseline_origin []
    if r.2.length > 0 then
      let b2 := s.builder.emit
        (.pushText it.prim_info r.2 item.text_run.font_key item.text_color none)
      .ok { s with builder := b2 }
    else .ok s
  | .Image item =>
    match item.webrender_image.key with
    | some id =>
      if 0 < item.stretch_size.width ∧ 0 < item.stretch_size.height then
        let b2 := s.builder.emit
          (.pushImage it.prim_info item.stretch_size item.tile_spacing
            item.image_rendering id)
        .ok { s with builder := b2 }
      else .ok s
    | none => .ok s
  | .Border item =>
    match item.details with
    | .Normal border =>
      let b2 := s.builder.emit
        (.pushBorder it.prim_info item.border_widths (.Normal border))
      .ok { s with builder := b2 }
    | .Image image =>
      let b2 := s.builder.emit
        (.pushBorder it.prim_info item.border_widths (.Image image))
      .ok { s with builder := b2 }
    | .Gradient g =>
      let r := s.builder.create_gradient g.gradient.start_point g.gradient.end_point
        g.gradient.stops g.gradient.extend_mode
      let b2 := r.1.emit
        (.pushBorder it.prim_info item.border_widths (.Gradient r.2 g.outset))
      .ok { s with builder := b2 }
    | .RadialGradient g =>
      let r := s.builder.create_radial_gradient g.gradient.center g.gradient.radius
        g.gradient.stops g.gradient.extend_mode
      let b2 := r.1.emit
        (.pushBorder it.prim_info item.border_widths (.RadialGradient r.2 g.outset))
      .ok { s with builder := b2 }
  | .Gradient item =>
    let r := s.builder.create_gradient item.gradient.start_point item.gradient.end_point
      item.gradient.stops item.gradient.extend_mode
    let b2 := r.1.emit (.pushGradient it.prim_info r.2 item.tile item.tile_spacing)
    .ok { s with builder := b2 }
  | .RadialGradient item =>
    let r := s.builder.create_radial_gradient item.gradient.center item.gradient.radius
      item.gradient.stops item.gradient.extend_mode
    let b2 := r.1.emit (.pushRadialGradient it.prim_info r.2 item.tile item.tile_spacing)
    .ok { s with builder := b2 }
  | .Line item =>
    let thickness : Rat := ((⌈(0.33 : Rat) * auToPx item.base.bounds.size.height⌉ : Int) : Rat)
    let b2 := s.builder.emit
      (.pushLine it.prim_info thickness .Horizontal item.color item.style)
    .ok { s with builder := b2 }
  | .BoxShadow item =>
    let b2 := s.builder.emit
      (.pushBoxShadow it.prim_info item.box_bounds item.offset item.color item.blur_radius
        item.spread_radius item.border_radius item.clip_mode)
    .ok { s with builder := b2 }
  | .PushTextShadow item =>
    let b2 := s.builder.emit
      (.pushShadow it.prim_info ⟨item.blur_radius, item.offset, item.color⟩)
    .ok { s with builder := b2 }
  | .PopAllTextShadows _ =>
    .ok { s with builder := s.builder.emit .popAllShadows }
  | .Iframe item =>
    .ok { s with builder := s.builder.emit (.pushIframe it.prim_info item.iframe) }
  | .PushStackingContext item =>
    let sc := item.stacking_context
    if d ∧ sc.context_type ≠ StackingContextType.Real then .error .assertFailed
    else
      let b2 := s.builder.emit
        (.pushStackingContext (LayoutPrimitiveInfo.ofRect sc.bounds.to_layout)
          sc.scroll_policy sc.transform sc.transform_style sc.perspective
          sc.mix_blend_mode sc.filters)
      .ok { s with builder := b2 }
  | .PopStackingContext _ =>
    .ok { s with builder := s.builder.emit .popStackingContext }
  | .DefineClipScrollNode item =>
    match nodes.get? item.node_index with
    | none => .error .oobIndex
    | some node =>
      match get_id s.clipIds node.parent_index with
      | .error e => .error e
      | .ok parent_id =>
        let r := defineNodeBuilder s.builder node parent_id
        if d ∧ ¬(node.id = none ∨ node.id = some r.2) then .error .assertFailed
        else if item.node_index < s.clipIds.length then
          .ok { s with
            builder := r.1
            clipIds := s.clipIds.set item.node_index (some r.2) }
        else .error .oobIndex

/-- DisplayItem::convert_to_webrender: the context-switch step followed by the
    per-variant translation. -/
def convertItem (d : Bool) (nodes : List ClipScrollNode) (it : DisplayItem)
    (s : ConvState) : Except ConvErr ConvState :=
  match resolveContext s.clipIds it.base with
  | .error e => .error e
  | .ok m => translateItem d nodes it (applySwitch m s)

/-- The item loop of DisplayList::convert_to_webrender. -/
def runItems (d : Bool) (nodes : List ClipScrollNode) :
    List DisplayItem → ConvState → Except ConvErr ConvState
  | [], s => .ok s
  | it :: rest, s =>
    match convertItem d nodes it s with
    | .ok s2 => runItems d nodes rest s2
    | .error e => .error e

/-- PipelineId::root_clip_and_scroll_info. -/
def rootClipAndScrollInfo (pipeline : Nat) : ClipAndScrollInfo :=
  ClipAndScrollInfo.simple (ClipId.root_scroll_node pipeline)

/-- DisplayListBuilder::with_capacity: a fresh builder for the pipeline, sized
    to the list bounds. -/
def initialBuilder (dl : DisplayList) (pipeline : Nat) : DisplayListBuilder :=
  { pipeline_id := pipeline, content_size := dl.bounds.size.to_layout, cmds := []
    clip_stack := [], next_node_id := 0, next_gradient_id := 0 }

/-- The resolution table at the start of conversion: same length as the node
    array, entry 0 seeded with the pipeline root scroll id, all others empty. -/
def initialClipIds (dl : DisplayList) (pipeline : Nat) : List (Option ClipId) :=
  (List.replicate dl.clip_scroll_nodes.length (none : Option ClipId)).set 0
    (some (ClipId.root_scroll_node pipeline))

/-- The traversal state right before the item loop: root context pushed and
    active, resolution table seeded. -/
def initialState (dl : DisplayList) (pipeline : Nat) : ConvState :=
  let b := (initialBuilder dl pipeline).push_clip_and_scroll_info
    (rootClipAndScrollInfo pipeline)
  { builder := b
    clipIds := initialClipIds dl pipeline
    current := rootClipAndScrollInfo pipeline }

/-- DisplayList::convert_to_webrender: the one-shot forward pass over the item
    list.  Writing the root entry of the resolution table panics when the node
    array is empty, modelled by the leading length guard. -/
def convert_to_webrender (d : Bool) (dl : DisplayList) (pipeline : Nat) :
    Except ConvErr DisplayListBuilder :=
  if dl.clip_scroll_nodes.length = 0 then .error .oobIndex
  else
    match runItems d dl.clip_scroll_nodes dl.list (initialState dl pipeline) with
    | .ok s => .ok s.builder
    | .error e => .error e

/-- Recognizer for the begin-new-context builder call. -/
def isContextPush : BuilderCmd → Bool
  | .pushClipAndScrollInfo _ => true
  | _ => false

/-- The number of begin-new-context calls in a trace. -/
def countInfoPush (cs : List BuilderCmd) : Nat :=
  (cs.filter isContextPush).length

/-- The index a DefineClipScrollNode item writes, none for every other item. -/
def defineIndex : DisplayItem → Option Nat
  | .DefineClipScrollNode item => some item.node_index
  | _ => none

theorem countInfoPush_append (a b : List BuilderCmd) :
    countInfoPush (a ++ b) = countInfoPush a + countInfoPush b := by
  simp [countInfoPush, List.filter_append]

theorem countInfoPush_switchCmds (c m : ClipAndScrollInfo) :
    countInfoPush (switchCmds c m) = if m = c then 0 else 1 := by
  unfold switchCmds
  split <;> simp [countInfoPush, isContextPush]

@[simp] theorem emit_cmds (b : DisplayListBuilder) (c : BuilderCmd) :
    (b.emit c).cmds = b.cmds ++ [c] := rfl

@[simp] theorem emit_clip_stack (b : DisplayListBuilder) (c : BuilderCmd) :
    (b.emit c).clip_stack = b.clip_stack := rfl

@[simp] theorem applySwitch_current (m : ClipAndScrollInfo) (s : ConvState) :
    (applySwitch m s).current = m := by
  unfold applySwitch
  split <;> simp_all

@[simp] theorem applySwitch_clipIds (m : ClipAndScrollInfo) (s : ConvState) :
    (applySwitch m s).clipIds = s.clipIds := by
  unfold applySwitch
  split <;> rfl

theorem applySwitch_cmds (m : ClipAndScrollInfo) (s : ConvState) :
    (applySwitch m s).builder.cmds = s.builder.cmds ++ switchCmds s.current m := by
  unfold applySwitch switchCmds
  split <;> simp [DisplayListBuilder.pop_clip_id, DisplayListBuilder.push_clip_and_scroll_info]

@[simp] theorem applySwitch_gradient_id (m : ClipAndScrollInfo) (s : ConvState) :
    (applySwitch m s).builder.next_gradient_id = s.builder.next_gradient_id := by
  unfold applySwitch
  split <;> rfl

@[simp] theorem applySwitch_node_id (m : ClipAndScrollInfo) (s : ConvState) :
    (applySwitch m s).builder.next_node_id = s.builder.next_node_id := by
  unfold applySwitch
  split <;> rfl

theorem applySwitch_clip_stack (m : ClipAndScrollInfo) (s : ConvState) :
    (applySwitch m s).builder.clip_stack =
      if m = s.current then s.builder.clip_stack else m :: s.builder.clip_stack.tail := by
  unfold applySwitch
  split <;> simp [DisplayListBuilder.pop_clip_id, DisplayListBuilder.push_clip_and_scroll_info]

/-- The define dispatch never returns an id contradicting a pre-assigned node
    id, so the internal consistency debug_assert always passes. -/
theorem defineNodeBuilder_id_consistent (b : DisplayListBuilder) (node : ClipScrollNode)
    (p : ClipId) : node.id = none ∨ node.id = some (defineNodeBuilder b node p).2 := by
  unfold defineNodeBuilder
  cases hid : node.id with
  | none => exact Or.inl rfl
  | some i =>
    refine Or.inr ?_
    cases node.node_type <;>
      simp [hid, DisplayListBuilder.define_clip_with_parent,
        DisplayListBuilder.define_scroll_frame_with_parent,
        DisplayListBuilder.define_sticky_frame, DisplayListBuilder.alloc_clip_id,
        DisplayListBuilder.push_clip_id, DisplayListBuilder.pop_clip_id]

/-- The id the define dispatch returns: the pre-assigned node id when present,
    otherwise the fresh builder-chosen id. -/
def allocIdOfNode (b : DisplayListBuilder) (node : ClipScrollNode) : ClipId :=
  match node.id with
  | some id => id
  | none => ClipId.dynamic b.next_node_id

/-- The exact builder calls the define dispatch appends for one node. -/
def defineNodeCmds (b : DisplayListBuilder) (node : ClipScrollNode) (p : ClipId) :
    List BuilderCmd :=
  match node.node_type with
  | .Clip =>
    [(.defineClip (allocIdOfNode b node) p node.clip.main.to_layout
      node.clip.get_complex_clips none)]
  | .ScrollFrame sens =>
    [(.defineScrollFrame (allocIdOfNode b node) p node.content_rect
      node.clip.main.to_layout node.clip.get_complex_clips none sens)]
  | .StickyFrame data =>
    [(.pushClipId p),
     (.defineStickyFrame (allocIdOfNode b node) node.clip.main.to_layout data.margins
       data.vertical_offset_bounds data.horizontal_offset_bounds ⟨0, 0⟩),
     .popClipId]

/-- The define dispatch appends exactly defineNodeCmds, returns allocIdOfNode,
    restores the clip stack, and leaves the gradient counter unchanged. -/
theorem defineNodeBuilder_spec (b : DisplayListBuilder) (node : ClipScrollNode)
    (p : ClipId) :
    (defineNodeBuilder b node p).2 = allocIdOfNode b node ∧
    (defineNodeBuilder b node p).1.cmds = b.cmds ++ defineNodeCmds b node p ∧
    (defineNodeBuilder b node p).1.clip_stack = b.clip_stack ∧
    (defineNodeBuilder b node p).1.next_gradient_id = b.next_gradient_id := by
  cases ht : node.node_type with
  | Clip =>
    cases hid : node.id <;>
      simp [defineNodeBuilder, defineNodeCmds, allocIdOfNode, ht, hid,
        DisplayListBuilder.define_clip_with_parent, DisplayListBuilder.alloc_clip_id,
        DisplayListBuilder.emit]
  | ScrollFrame sens =>
    cases hid : node.id <;>
      simp [defineNodeBuilder, defineNodeCmds, allocIdOfNode, ht, hid,
        DisplayListBuilder.define_scroll_frame_with_parent,
        DisplayListBuilder.alloc_clip_id, DisplayListBuilder.emit]
  | StickyFrame data =>
    cases hid : node.id <;>
      simp [defineNodeBuilder, defineNodeCmds, allocIdOfNode, ht, hid,
        DisplayListBuilder.define_sticky_frame, DisplayListBuilder.alloc_clip_id,
        DisplayListBuilder.emit, DisplayListBuilder.push_clip_id,
        DisplayListBuilder.pop_clip_id]

/-- None of the define-dispatch builder calls is a begin-new-context call. -/
theorem defineNodeCmds_no_context_push (b : DisplayListBuilder) (node : ClipScrollNode)
    (p : ClipId) : (defineNodeCmds b node p).filter isContextPush = [] := by
  cases ht : node.node_type <;> simp [defineNodeCmds, ht, isContextPush]

/-- What a successful per-variant translation does to the state: the active
    context is untouched, the trace only grows and gains no begin-new-context
    call, and the resolution table changes only at the index a
    DefineClipScrollNode item defines. -/
theorem translateItem_ok_spec (d : Bool) (nodes : List ClipScrollNode)
    (it : DisplayItem) (s s2 : ConvState)
    (h : translateItem d nodes it s = .ok s2) :
    s2.current = s.current ∧
    countInfoPush s2.builder.cmds = countInfoPush s.builder.cmds ∧
    s.builder.cmds <+: s2.builder.cmds ∧
    (match defineIndex it with
     | some j => (∃ node, nodes.get? j = some node) ∧
         ∃ id, j < s.clipIds.length ∧ s2.clipIds = s.clipIds.set j (some id)
     | none => s2.clipIds = s.clipIds) := by
  cases it
  case DefineClipScrollNode item =>
    simp only [translateItem] at h
    cases hn : nodes.get? item.node_index with
    | none =>
      simp only [hn] at h
      exact Except.noConfusion h
    | some node =>
      simp only [hn] at h
      cases hp : get_id s.clipIds node.parent_index with
      | error e =>
        simp only [hp] at h
        exact Except.noConfusion h
      | ok parent_id =>
        simp only [hp] at h
        split at h
        · exact Except.noConfusion h
        · split at h
          · simp only [Except.ok.injEq] at h
            subst h
            have hs := defineNodeBuilder_spec s.builder node parent_id
            have hz := defineNodeCmds_no_context_push s.builder node parent_id
            refine ⟨rfl, ?_, ?_, ?_⟩
            · rw [hs.2.1, countInfoPush_append]
              simp [countInfoPush, hz]
            · rw [hs.2.1]
              exact List.prefix_append _ _
            · exact ⟨⟨node, hn⟩, _, by assumption, rfl⟩
          · exact Except.noConfusion h
  all_goals
    simp only [translateItem] at h
    repeat' split at h
    all_goals try exact Except.noConfusion h
    all_goals simp only [Except.ok.injEq] at h
    all_goals subst h
    all_goals refine ⟨rfl, ?_, ?_, rfl⟩
    all_goals simp [DisplayListBuilder.emit, DisplayListBuilder.create_gradient,
      DisplayListBuilder.create_radial_gradient, countInfoPush, isContextPush,
      List.filter_append, List.prefix_append, List.append_assoc, List.prefix_refl]

/-- A successful convertItem implies its context resolution succeeded. -/
theorem convertItem_ok_resolves (d : Bool) (nodes : List ClipScrollNode)
    (it : DisplayItem) (s s2 : ConvState) (h : convertItem d nodes it s = .ok s2) :
    ∃ m, resolveContext s.clipIds it.base = .ok m := by
  unfold convertItem at h
  cases hr : resolveContext s.clipIds it.base with
  | error e =>
    rw [hr] at h
    exact Except.noConfusion h
  | ok m => exact ⟨m, rfl⟩

/-- What one successful convertItem call does: the merged context becomes the
    active one, the switch pair is emitted exactly when the context changes
    (and then right after the previous trace), and the resolution table is
    written only at a defined node index. -/
theorem convertItem_ok_spec (d : Bool) (nodes : List ClipScrollNode)
    (it : DisplayItem) (s s2 : ConvState) (m : ClipAndScrollInfo)
    (hm : resolveContext s.clipIds it.base = .ok m)
    (h : convertItem d nodes it s = .ok s2) :
    s2.current = m ∧
    countInfoPush s2.builder.cmds =
      countInfoPush s.builder.cmds + (if m = s.current then 0 else 1) ∧
    (s.builder.cmds ++ switchCmds s.current m) <+: s2.builder.cmds ∧
    (match defineIndex it with
     | some j => (∃ node, nodes.get? j = some node) ∧
         ∃ id, j < s.clipIds.length ∧ s2.clipIds = s.clipIds.set j (some id)
     | none => s2.clipIds = s.clipIds) := by
  unfold convertItem at h
  rw [hm] at h
  obtain ⟨hcur, hcount, hpre, hclip⟩ :=
    translateItem_ok_spec d nodes it (applySwitch m s) s2 h
  rw [applySwitch_cmds] at hpre
  rw [applySwitch_cmds, countInfoPush_append, countInfoPush_switchCmds] at hcount
  simp only [applySwitch_clipIds] at hclip
  exact ⟨by rw [hcur, applySwitch_current], hcount, hpre, hclip⟩

/-- The merged context of each item along a run, in processing order. -/
def contextTrace (d : Bool) (nodes : List ClipScrollNode) :
    List DisplayItem → ConvState → List ClipAndScrollInfo
  | [], _ => []
  | it :: rest, s =>
    match resolveContext s.clipIds it.base with
    | .error _ => []
    | .ok m =>
      match convertItem d nodes it s with
      | .ok s2 => m :: contextTrace d nodes rest s2
      | .error _ => [m]

/-- The number of changes along a context sequence, measured from a starting
    context: one per adjacent unequal pair. -/
def chainChanges : ClipAndScrollInfo → List ClipAndScrollInfo → Nat
  | _, [] => 0
  | c, x :: xs => (if x = c then 0 else 1) + chainChanges x xs

/-- Over a successful run, the number of begin-new-context calls grows by
    exactly the number of changes along the merged-context sequence. -/
theorem runItems_countInfoPush (d : Bool) (nodes : List ClipScrollNode) :
    ∀ (items : List DisplayItem) (s s2 : ConvState),
    runItems d nodes items s = .ok s2 →
    countInfoPush s2.builder.cmds =
      countInfoPush s.builder.cmds + chainChanges s.current (contextTrace d nodes items s)
  | [], s, s2, h => by
    simp only [runItems, Except.ok.injEq] at h
    subst h
    simp [contextTrace, chainChanges]
  | it :: rest, s, s2, h => by
    simp only [runItems] at h
    cases hc : convertItem d nodes it s with
    | error e =>
      rw [hc] at h
      exact Except.noConfusion h
    | ok s1 =>
      rw [hc] at h
      obtain ⟨m, hm⟩ := convertItem_ok_resolves d nodes it s s1 hc
      obtain ⟨hcur, hcount, -, -⟩ := convertItem_ok_spec d nodes it s s1 m hm hc
      have ih := runItems_countInfoPush d nodes rest s1 s2 h
      rw [ih, hcount]
      simp only [contextTrace, hm, hc, chainChanges, hcur]
      omega

theorem get?_set_self {α : Type} (l : List α) (i : Nat) (a : α) (h : i < l.length) :
    (l.set i a).get? i = some a := by
  induction l generalizing i with
  | nil => simp at h
  | cons x xs ih =>
    cases i with
    | zero => rfl
    | succ j =>
      simp only [List.set, List.get?]
      exact ih j (by simpa using h)

theorem get?_set_ne {α : Type} (l : List α) (i j : Nat) (a : α) (h : i ≠ j) :
    (l.set i a).get? j = l.get? j := by
  induction l generalizing i j with
  | nil => simp
  | cons x xs ih =>
    cases i with
    | zero =>
      cases j with
      | zero => exact absurd rfl h
      | succ j2 => rfl
    | succ i2 =>
      cases j with
      | zero => rfl
      | succ j2 =>
        simp only [List.set, List.get?]
        exact ih i2 j2 (by omega)

theorem get?_replicate {α : Type} (a : α) : ∀ (n i : Nat),
    (List.replicate n a).get? i = if i < n then some a else none
  | 0, i => by simp
  | n + 1, 0 => by simp [List.replicate]
  | n + 1, i + 1 => by
    simp only [List.replicate, List.get?]
    rw [get?_replicate a n i]
    simp [Nat.add_lt_add_iff_right]

/-- Whether the tracked defined-set marks index i as resolved. -/
def resolvedFlag (defs : List Bool) (i : Nat) : Bool :=
  (defs.get? i).getD false

/-- One step of the parent-before-child validity check: the item base indices
    must already be resolved, and a DefineClipScrollNode item additionally
    needs an in-bounds node index and a resolved parent index; afterwards its
    own index counts as resolved. -/
def checkItem (nodes : List ClipScrollNode) (defs : List Bool) (it : DisplayItem) :
    Bool × List Bool :=
  let cs := it.base.clipping_and_scrolling
  let baseOk := resolvedFlag defs cs.scrolling &&
    (match cs.clipping with
     | none => true
     | some i => resolvedFlag defs i)
  match it with
  | .DefineClipScrollNode item =>
    match nodes.get? item.node_index with
    | none => (false, defs)
    | some node =>
      (baseOk && resolvedFlag defs node.parent_index, defs.set item.node_index true)
  | _ => (baseOk, defs)

/-- The forward validity check over the whole item sequence. -/
def checkItems (nodes : List ClipScrollNode) : List DisplayItem → List Bool → Bool
  | [], _ => true
  | it :: rest, defs =>
    (checkItem nodes defs it).1 && checkItems nodes rest (checkItem nodes defs it).2

/-- The defined-set at the start: only the root index 0 is resolved. -/
def initialDefs (dl : DisplayList) : List Bool :=
  (List.replicate dl.clip_scroll_nodes.length false).set 0 true

/-- The claim hypothesis: the node array is a nonempty parent-before-child
    tree and every node index any item references, directly or as a parent,
    is resolved before its point of use. -/
def validDL (dl : DisplayList) : Prop :=
  dl.clip_scroll_nodes ≠ [] ∧
  checkItems dl.clip_scroll_nodes dl.list (initialDefs dl) = true

/-- The tracked defined-set agrees with the resolution table. -/
def tableMatches (defs : List Bool) (clipIds : List (Option ClipId)) : Prop :=
  defs.length = clipIds.length ∧
  ∀ i, resolvedFlag defs i = true ↔ ∃ v, clipIds.get? i = some (some v)

theorem get_id_ok_of_flag {defs : List Bool} {clipIds : List (Option ClipId)} {i : Nat}
    (ht : tableMatches defs clipIds) (hf : resolvedFlag defs i = true) :
    ∃ v, get_id clipIds i = .ok v := by
  obtain ⟨v, hv⟩ := (ht.2 i).1 hf
  refine ⟨v, ?_⟩
  unfold get_id
  rw [hv]

/-- The optional clipping index of an item base is resolved in the tracked
    defined-set (trivially satisfied when there is no clipping index). -/
def clippingFlagProp (defs : List Bool) (o : Option Nat) : Prop :=
  match o with
  | none => True
  | some i => resolvedFlag defs i = true

theorem resolveContext_ok_of_flags {defs : List Bool} {clipIds : List (Option ClipId)}
    (base : BaseDisplayItem) (ht : tableMatches defs clipIds)
    (h1 : resolvedFlag defs base.clipping_and_scrolling.scrolling = true)
    (h2 : clippingFlagProp defs base.clipping_and_scrolling.clipping) :
    ∃ m, resolveContext clipIds base = .ok m := by
  obtain ⟨sid, hsid⟩ := get_id_ok_of_flag ht h1
  cases hcl : base.clipping_and_scrolling.clipping with
  | none =>
    refine ⟨ClipAndScrollInfo.simple sid, ?_⟩
    simp only [resolveContext, hsid, hcl]
  | some i =>
    rw [hcl] at h2
    rw [clippingFlagProp.eq_def] at h2
    simp only [] at h2
    obtain ⟨cid, hcid⟩ := get_id_ok_of_flag ht h2
    refine ⟨ClipAndScrollInfo.new sid cid, ?_⟩
    simp only [resolveContext, hsid, hcl, hcid]

theorem checkItem_fst_nonDefine (nodes : List ClipScrollNode) (defs : List Bool)
    (it : DisplayItem) (hnd : defineIndex it = none) :
    (checkItem nodes defs it).1 =
      (resolvedFlag defs it.base.clipping_and_scrolling.scrolling &&
        (match it.base.clipping_and_scrolling.clipping with
         | none => true
         | some i => resolvedFlag defs i)) := by
  cases it
  case DefineClipScrollNode item => simp [defineIndex] at hnd
  all_goals rfl

theorem checkItem_snd_nonDefine (nodes : List ClipScrollNode) (defs : List Bool)
    (it : DisplayItem) (hnd : defineIndex it = none) :
    (checkItem nodes defs it).2 = defs := by
  cases it
  case DefineClipScrollNode item => simp [defineIndex] at hnd
  all_goals rfl

/-- Every non-DefineClipScrollNode variant translates without any possibility
    of failure in a release build. -/
theorem translateItem_release_nonDefine_ok (nodes : List ClipScrollNode)
    (it : DisplayItem) (s : ConvState) (hnd : defineIndex it = none) :
    ∃ s2, translateItem false nodes it s = .ok s2 := by
  cases it
  case DefineClipScrollNode item => simp [defineIndex] at hnd
  all_goals
    simp only [translateItem]
    repeat' split
    all_goals first
      | exact ⟨_, rfl⟩
      | simp_all

/-- Debug assertions are the only difference between a debug and a release
    translation: either both agree or the debug one aborts with a failed
    assertion. -/
theorem translateItem_debug_cases (dbg : Bool) (nodes : List ClipScrollNode)
    (it : DisplayItem) (s : ConvState) :
    translateItem dbg nodes it s = translateItem false nodes it s ∨
    translateItem dbg nodes it s = .error .assertFailed := by
  cases it
  case PushStackingContext item =>
    by_cases hreal : item.stacking_context.context_type = StackingContextType.Real
    · left
      simp [translateItem, hreal]
    · cases dbg
      · exact Or.inl rfl
      · right
        simp [translateItem, hreal]
  case DefineClipScrollNode item =>
    left
    simp only [translateItem]
    cases hn : nodes.get? item.node_index with
    | none => simp only [hn]
    | some node =>
      simp only [hn]
      cases hp : get_id s.clipIds node.parent_index with
      | error e => simp only [hp]
      | ok p =>
        simp only [hp]
        have hcons := defineNodeBuilder_id_consistent s.builder node p
        conv_lhs => rw [if_neg (fun hAnd => hAnd.2 hcons)]
        conv_rhs => rw [if_neg (fun hAnd => hAnd.2 hcons)]
  all_goals exact Or.inl rfl

theorem convertItem_debug_cases (dbg : Bool) (nodes : List ClipScrollNode)
    (it : DisplayItem) (s : ConvState) :
    convertItem dbg nodes it s = convertItem false nodes it s ∨
    convertItem dbg nodes it s = .error .assertFailed := by
  unfold convertItem
  cases hr : resolveContext s.clipIds it.base with
  | error e => exact Or.inl rfl
  | ok m => exact translateItem_debug_cases dbg nodes it (applySwitch m s)

theorem clipping_flag_prop {defs : List Bool} {o : Option Nat}
    (h : (match o with | none => true | some i => resolvedFlag defs i) = true) :
    clippingFlagProp defs o := by
  cases o with
  | none => trivial
  | some i => simpa [clippingFlagProp] using h

theorem get?_some_lt {α : Type} {l : List α} {n : Nat} {a : α}
    (h : l.get? n = some a) : n < l.length := by
  by_contra hge
  rw [List.get?_eq_none.mpr (by omega)] at h
  exact Option.noConfusion h

/-- Under the validity check, one release conversion step succeeds. -/
theorem convertItem_release_ok (nodes : List ClipScrollNode) (it : DisplayItem)
    (s : ConvState) (defs : List Bool)
    (ht : tableMatches defs s.clipIds) (hlen : s.clipIds.length = nodes.length)
    (hchk : (checkItem nodes defs it).1 = true) :
    ∃ s2, convertItem false nodes it s = .ok s2 := by
  cases it
  case DefineClipScrollNode item =>
    have hck : checkItem nodes defs (.DefineClipScrollNode item) =
        match nodes.get? item.node_index with
        | none => (false, defs)
        | some node =>
          ((resolvedFlag defs item.base.clipping_and_scrolling.scrolling &&
            (match item.base.clipping_and_scrolling.clipping with
             | none => true
             | some i => resolvedFlag defs i)) && resolvedFlag defs node.parent_index,
           defs.set item.node_index true) := rfl
    cases hn : nodes.get? item.node_index with
    | none =>
      rw [hck, hn] at hchk
      exact Bool.noConfusion hchk
    | some node =>
      rw [hck, hn] at hchk
      replace hchk : ((resolvedFlag defs item.base.clipping_and_scrolling.scrolling &&
            (match item.base.clipping_and_scrolling.clipping with
             | none => true
             | some i => resolvedFlag defs i)) &&
          resolvedFlag defs node.parent_index) = true := hchk
      rw [Bool.and_eq_true, Bool.and_eq_true] at hchk
      obtain ⟨⟨h1, h2⟩, hpar⟩ := hchk
      obtain ⟨m, hm⟩ := resolveContext_ok_of_flags item.base ht h1 (clipping_flag_prop h2)
      unfold convertItem
      simp only [DisplayItem.base]
      rw [hm]
      obtain ⟨pv, hpv⟩ := get_id_ok_of_flag ht hpar
      simp only [translateItem, applySwitch_clipIds, hn, hpv]
      rw [if_neg (by simp)]
      have hjlt : item.node_index < s.clipIds.length := by
        rw [hlen]
        exact get?_some_lt hn
      rw [if_pos hjlt]
      exact ⟨_, rfl⟩
  all_goals
    rw [checkItem_fst_nonDefine nodes defs _ (by simp [defineIndex]),
      Bool.and_eq_true] at hchk
    obtain ⟨h1, h2⟩ := hchk
    obtain ⟨m, hm⟩ := resolveContext_ok_of_flags _ ht h1 (clipping_flag_prop h2)
    unfold convertItem
    rw [hm]
    exact translateItem_release_nonDefine_ok nodes _ _ (by simp [defineIndex])

/-- One successful conversion step keeps the defined-set of the validity check
    and the resolution table in agreement. -/
theorem convertItem_ok_table (d : Bool) (nodes : List ClipScrollNode)
    (it : DisplayItem) (s s2 : ConvState) (defs : List Bool)
    (ht : tableMatches defs s.clipIds)
    (h : convertItem d nodes it s = .ok s2) :
    tableMatches (checkItem nodes defs it).2 s2.clipIds ∧
    s2.clipIds.length = s.clipIds.length := by
  obtain ⟨m, hm⟩ := convertItem_ok_resolves d nodes it s s2 h
  obtain ⟨-, -, -, hclip⟩ := convertItem_ok_spec d nodes it s s2 m hm h
  cases it
  case DefineClipScrollNode item =>
    simp only [defineIndex] at hclip
    obtain ⟨⟨node, hn⟩, id, hjlt, hset⟩ := hclip
    have hck2 : (checkItem nodes defs (.DefineClipScrollNode item)).2 =
        defs.set item.node_index true := by
      have hck : checkItem nodes defs (.DefineClipScrollNode item) =
          match nodes.get? item.node_index with
          | none => (false, defs)
          | some node =>
            ((resolvedFlag defs item.base.clipping_and_scrolling.scrolling &&
              (match item.base.clipping_and_scrolling.clipping with
               | none => true
               | some i => resolvedFlag defs i)) && resolvedFlag defs node.parent_index,
             defs.set item.node_index true) := rfl
      rw [hck, hn]
    rw [hck2, hset]
    refine ⟨⟨?_, ?_⟩, ?_⟩
    · simp [ht.1]
    · intro i
      by_cases hij : i = item.node_index
      · subst hij
        have hd1 : (defs.set item.node_index true).get? item.node_index = some true :=
          get?_set_self _ _ _ (by rw [ht.1]; exact hjlt)
        have hd2 : (s.clipIds.set item.node_index (some id)).get? item.node_index =
            some (some id) :=
          get?_set_self _ _ _ hjlt
        simp only [resolvedFlag]
        rw [hd1, hd2]
        simp
      · have hd1 : (defs.set item.node_index true).get? i = defs.get? i :=
          get?_set_ne _ _ _ _ (fun hh => hij hh.symm)
        have hd2 : (s.clipIds.set item.node_index (some id)).get? i = s.clipIds.get? i :=
          get?_set_ne _ _ _ _ (fun hh => hij hh.symm)
        simp only [resolvedFlag]
        rw [hd1, hd2]
        exact ht.2 i
    · simp
  all_goals
    simp only [defineIndex] at hclip
    rw [checkItem_snd_nonDefine nodes defs _ (by simp [defineIndex]), hclip]
    exact ⟨ht, rfl⟩

/-- Under the validity check, the whole release run succeeds. -/
theorem runItems_release_ok (nodes : List ClipScrollNode) :
    ∀ (items : List DisplayItem) (s : ConvState) (defs : List Bool),
    checkItems nodes items defs = true → tableMatches defs s.clipIds →
    s.clipIds.length = nodes.length →
    ∃ s2, runItems false nodes items s = .ok s2
  | [], s, defs, _, _, _ => ⟨s, rfl⟩
  | it :: rest, s, defs, hchk, ht, hlen => by
    simp only [checkItems, Bool.and_eq_true] at hchk
    obtain ⟨h1, h2⟩ := hchk
    obtain ⟨s1, hs1⟩ := convertItem_release_ok nodes it s defs ht hlen h1
    obtain ⟨ht2, hlen2⟩ := convertItem_ok_table false nodes it s s1 defs ht hs1
    obtain ⟨s2, hs2⟩ := runItems_release_ok nodes rest s1 (checkItem nodes defs it).2 h2 ht2
      (by rw [hlen2, hlen])
    refine ⟨s2, ?_⟩
    simp only [runItems, hs1, hs2]

/-- Debug assertions are the only difference between a debug and a release
    run: either both agree or the debug run aborts with a failed assertion. -/
theorem runItems_debug_cases (dbg : Bool) (nodes : List ClipScrollNode) :
    ∀ (items : List DisplayItem) (s : ConvState),
    runItems dbg nodes items s = runItems false nodes items s ∨
    runItems dbg nodes items s = .error .assertFailed
  | [], _ => Or.inl rfl
  | it :: rest, s => by
    rcases convertItem_debug_cases dbg nodes it s with heq | herr
    · simp only [runItems, heq]
      cases hc : convertItem false nodes it s with
      | error e => exact Or.inl rfl
      | ok s1 => exact runItems_debug_cases dbg nodes rest s1
    · right
      simp only [runItems, herr]

/-- The initial defined-set agrees with the initial resolution table. -/
theorem initial_table (dl : DisplayList) (pid : Nat) (hne : dl.clip_scroll_nodes ≠ []) :
    tableMatches (initialDefs dl) (initialClipIds dl pid) ∧
    (initialClipIds dl pid).length = dl.clip_scroll_nodes.length := by
  have hn : 0 < dl.clip_scroll_nodes.length := List.length_pos.mpr hne
  refine ⟨⟨?_, ?_⟩, ?_⟩
  · simp [initialDefs, initialClipIds]
  · intro i
    by_cases hi : i = 0
    · subst hi
      have h1 : (initialDefs dl).get? 0 = some true := by
        unfold initialDefs
        exact get?_set_self _ 0 true (by simpa using hn)
      have h2 : (initialClipIds dl pid).get? 0 =
          some (some (ClipId.root_scroll_node pid)) := by
        unfold initialClipIds
        exact get?_set_self _ 0 _ (by simpa using hn)
      simp only [resolvedFlag]
      rw [h1, h2]
      simp
    · have h1 : (initialDefs dl).get? i =
          (List.replicate dl.clip_scroll_nodes.length false).get? i := by
        unfold initialDefs
        exact get?_set_ne _ 0 i _ (fun hh => hi hh.symm)
      have h2 : (initialClipIds dl pid).get? i =
          (List.replicate dl.clip_scroll_nodes.length (none : Option ClipId)).get? i := by
        unfold initialClipIds
        exact get?_set_ne _ 0 i _ (fun hh => hi hh.symm)
      simp only [resolvedFlag, h1, h2, get?_replicate]
      split <;> simp
  · simp [initialClipIds]

/-- A zero app-unit point. -/
def zeroPointAu : PointAu := ⟨0, 0⟩

/-- A zero app-unit rectangle. -/
def zeroRectAu : RectAu := ⟨zeroPointAu, ⟨0, 0⟩⟩

/-- A zero layout rectangle. -/
def zeroRectL : RectL := ⟨⟨0, 0⟩, ⟨0, 0⟩⟩

/-- An item base referencing the root scroll node and no clip node. -/
def exBase : BaseDisplayItem :=
  { bounds := zeroRectAu
    local_clip := .rect zeroRectL
    metadata := ⟨0, none⟩
    clipping_and_scrolling := ⟨0, none⟩ }

/-- A root clip node used to populate example node arrays. -/
def exNode : ClipScrollNode :=
  { id := none
    parent_index := 0
    clip := ⟨zeroRectAu, []⟩
    content_rect := zeroRectL
    node_type := .Clip }

/-- An example display list with an empty item sequence. -/
def exDL1 : DisplayList := ⟨zeroRectAu, [], [exNode]⟩

/-- C1: for every source display list whose node array is a valid
    parent-before-child tree (each node index an item references, directly or
    as a parent, resolved before use), convert_to_webrender completes (in a
    release build it returns a builder, and no build ever aborts on a
    resolution-table read); conversely a lookup of an index whose table entry
    is still empty is the fatal unreachable! panic at the point of use. -/
theorem claim_C1 (dl : DisplayList) (pid : Nat) (hvalid : validDL dl) :
    (∃ b, convert_to_webrender false dl pid = .ok b) ∧
    (∀ dbg : Bool, convert_to_webrender dbg dl pid ≠ .error .unresolvedId ∧
      convert_to_webrender dbg dl pid ≠ .error .oobIndex) ∧
    (∀ (ids : List (Option ClipId)) (i : Nat), ids.get? i = some none →
      get_id ids i = .error .unresolvedId) := by
  obtain ⟨hne, hchk⟩ := hvalid
  have hn0 : ¬dl.clip_scroll_nodes.length = 0 := by
    simpa [List.length_eq_zero] using hne
  obtain ⟨htab, hlen⟩ := initial_table dl pid hne
  obtain ⟨s2, hs2⟩ := runItems_release_ok dl.clip_scroll_nodes dl.list
    (initialState dl pid) (initialDefs dl) hchk htab hlen
  refine ⟨⟨s2.builder, ?_⟩, ?_, ?_⟩
  · unfold convert_to_webrender
    rw [if_neg hn0, hs2]
  · intro dbg
    rcases runItems_debug_cases dbg dl.clip_scroll_nodes dl.list (initialState dl pid)
      with heq | herr
    · constructor <;>
        · unfold convert_to_webrender
          rw [if_neg hn0, heq, hs2]
          simp
    · constructor <;>
        · unfold convert_to_webrender
          rw [if_neg hn0, herr]
          simp
  · intro ids i hsome
    unfold get_id
    rw [hsome]

/-- Witness for C1 at a concrete valid display list. -/
theorem claim_C1_witness :
    (∃ b, convert_to_webrender false exDL1 0 = .ok b) ∧
    (∀ dbg : Bool, convert_to_webrender dbg exDL1 0 ≠ .error .unresolvedId ∧
      convert_to_webrender dbg exDL1 0 ≠ .error .oobIndex) ∧
    (∀ (ids : List (Option ClipId)) (i : Nat), ids.get? i = some none →
      get_id ids i = .error .unresolvedId) :=
  claim_C1 exDL1 0 ⟨by simp [exDL1], rfl⟩

/-- An example PopStackingContext item (a structural item). -/
def exPopSC : DisplayItem := .PopStackingContext ⟨exBase⟩

/-- C10: the context lookup-and-switch step runs for every display item,
    structural variants included; whenever the merged context of the item base
    resolves, a successful conversion step leaves exactly that context active,
    and its trace is the old trace, then the switch pair (pop followed by push,
    present exactly when the merged context differs from the active one), then
    the item translation. -/
theorem claim_C10 (d : Bool) (nodes : List ClipScrollNode) (it : DisplayItem)
    (s s2 : ConvState) (m : ClipAndScrollInfo)
    (hm : resolveContext s.clipIds it.base = .ok m)
    (h : convertItem d nodes it s = .ok s2) :
    s2.current = m ∧
    (switchCmds s.current m =
      if m = s.current then [] else [.popClipId, .pushClipAndScrollInfo m]) ∧
    ∃ t, s2.builder.cmds = (s.builder.cmds ++ switchCmds s.current m) ++ t := by
  obtain ⟨hcur, -, hpre, -⟩ := convertItem_ok_spec d nodes it s s2 m hm h
  obtain ⟨t, ht⟩ := hpre
  exact ⟨hcur, rfl, t, ht.symm⟩

/-- Witness for C10 at a structural item (PopStackingContext) processed from
    the initial state of a concrete list. -/
theorem claim_C10_witness :
    ∃ s2, convertItem false [exNode] exPopSC (initialState exDL1 0) = .ok s2 ∧
      (s2.current = rootClipAndScrollInfo 0 ∧
       (switchCmds (initialState exDL1 0).current (rootClipAndScrollInfo 0) =
         if rootClipAndScrollInfo 0 = (initialState exDL1 0).current then []
         else [.popClipId, .pushClipAndScrollInfo (rootClipAndScrollInfo 0)]) ∧
       ∃ t, s2.builder.cmds = ((initialState exDL1 0).builder.cmds ++
         switchCmds (initialState exDL1 0).current (rootClipAndScrollInfo 0)) ++ t) := by
  refine ⟨_, rfl, ?_⟩
  exact claim_C10 false [exNode] exPopSC (initialState exDL1 0) _
    (rootClipAndScrollInfo 0) rfl rfl

/-- C2 (amended): over a successful conversion the number of begin-new-context
    calls in the final trace is one (the initial root push) plus the number of
    changes along the sequence that starts at the initial root context and
    continues with the merged context of each item in order. -/
theorem claim_C2 (d : Bool) (dl : DisplayList) (pid : Nat) (b : DisplayListBuilder)
    (h : convert_to_webrender d dl pid = .ok b) :
    countInfoPush b.cmds =
      1 + chainChanges (rootClipAndScrollInfo pid)
        (contextTrace d dl.clip_scroll_nodes dl.list (initialState dl pid)) := by
  unfold convert_to_webrender at h
  split at h
  · exact Except.noConfusion h
  · cases hr : runItems d dl.clip_scroll_nodes dl.list (initialState dl pid) with
    | error e =>
      rw [hr] at h
      exact Except.noConfusion h
    | ok s2 =>
      rw [hr] at h
      simp only [Except.ok.injEq] at h
      subst h
      have hrun := runItems_countInfoPush d dl.clip_scroll_nodes dl.list
        (initialState dl pid) s2 hr
      rw [hrun]
      have h1 : countInfoPush (initialState dl pid).builder.cmds = 1 := rfl
      have h2 : (initialState dl pid).current = rootClipAndScrollInfo pid := rfl
      rw [h1, h2]

/-- Following the claim words: the number of changes in the merged context
    across consecutive items, the first item not being compared with anything
    before it. -/
def consecutiveContextChanges : List ClipAndScrollInfo → Nat
  | [] => 0
  | m :: rest => chainChanges m rest

/-- The number of context switches a conversion emits beyond the initial root
    push. -/
def emittedSwitchCount (d : Bool) (dl : DisplayList) (pipeline : Nat) : Nat :=
  match convert_to_webrender d dl pipeline with
  | .ok b => countInfoPush b.cmds - 1
  | .error _ => 0

/-- An item base whose clipping index 0 makes its merged context differ from
    the initial root context. -/
def exBaseClip0 : BaseDisplayItem :=
  { bounds := zeroRectAu
    local_clip := .rect zeroRectL
    metadata := ⟨0, none⟩
    clipping_and_scrolling := ⟨0, some 0⟩ }

/-- A one-item list whose single item changes the context relative to the
    initial root context. -/
def exDL2 : DisplayList := ⟨zeroRectAu, [.SolidColor ⟨exBaseClip0, 0⟩], [exNode]⟩

/-- Counterexample to C2 as stated: a single-item list has zero changes of the
    merged context across consecutive items, yet the conversion emits one
    switch, because the first item is compared against the initial root
    context. -/
theorem claim_C2_counterexample :
    emittedSwitchCount false exDL2 0 = 1 ∧
    consecutiveContextChanges
      (contextTrace false exDL2.clip_scroll_nodes exDL2.list (initialState exDL2 0)) = 0 ∧
    emittedSwitchCount false exDL2 0 ≠
      consecutiveContextChanges
        (contextTrace false exDL2.clip_scroll_nodes exDL2.list (initialState exDL2 0)) := by
  refine ⟨?_, ?_, ?_⟩ <;> decide

/-- Witness for the amended C2 at the same concrete list. -/
theorem claim_C2_witness :
    ∃ b, convert_to_webrender false exDL2 0 = .ok b ∧
      countInfoPush b.cmds =
        1 + chainChanges (rootClipAndScrollInfo 0)
          (contextTrace false exDL2.clip_scroll_nodes exDL2.list (initialState exDL2 0)) := by
  refine ⟨_, rfl, ?_⟩
  exact claim_C2 false exDL2 0 _ rfl

/-- C6: an Image item emits exactly one image primitive when its backend
    handle is resolved and both stretch dimensions are strictly positive, and
    emits nothing, raising no error, in every other case; the traversal state
    past the context switch is otherwise untouched. -/
theorem claim_C6 (d : Bool) (nodes : List ClipScrollNode) (item : ImageDisplayItem)
    (s : ConvState) (m : ClipAndScrollInfo)
    (hm : resolveContext s.clipIds (DisplayItem.Image item).base = .ok m) :
    ∃ s2, convertItem d nodes (.Image item) s = .ok s2 ∧
      s2.clipIds = s.clipIds ∧ s2.current = m ∧
      s2.builder.cmds = (s.builder.cmds ++ switchCmds s.current m) ++
        (match item.webrender_image.key with
         | some id =>
           if 0 < item.stretch_size.width ∧ 0 < item.stretch_size.height then
             [(.pushImage (DisplayItem.Image item).prim_info item.stretch_size
               item.tile_spacing item.image_rendering id)]
           else []
         | none => []) := by
  unfold convertItem
  simp only [hm, translateItem]
  cases hk : item.webrender_image.key with
  | none =>
    refine ⟨applySwitch m s, rfl, applySwitch_clipIds m s, applySwitch_current m s, ?_⟩
    rw [applySwitch_cmds]
    simp
  | some id =>
    by_cases hpos : 0 < item.stretch_size.width ∧ 0 < item.stretch_size.height
    · simp only [if_pos hpos]
      refine ⟨_, rfl, applySwitch_clipIds m s, applySwitch_current m s, ?_⟩
      simp [DisplayListBuilder.emit, applySwitch_cmds]
    · simp only [if_neg hpos]
      refine ⟨applySwitch m s, rfl, applySwitch_clipIds m s, applySwitch_current m s, ?_⟩
      rw [applySwitch_cmds]
      simp

/-- An example image item with a resolved handle and positive stretch size. -/
def exImageItem : ImageDisplayItem :=
  { base := exBase
    webrender_image := ⟨some 7⟩
    stretch_size := ⟨1, 1⟩
    tile_spacing := ⟨0, 0⟩
    image_rendering := 0 }

/-- Witness for C6 at a concrete image item. -/
theorem claim_C6_witness :
    ∃ s2, convertItem false [exNode] (.Image exImageItem) (initialState exDL1 0) = .ok s2 ∧
      s2.clipIds = (initialState exDL1 0).clipIds ∧
      s2.current = rootClipAndScrollInfo 0 ∧
      s2.builder.cmds = ((initialState exDL1 0).builder.cmds ++
        switchCmds (initialState exDL1 0).current (rootClipAndScrollInfo 0)) ++
        (match exImageItem.webrender_image.key with
         | some id =>
           if 0 < exImageItem.stretch_size.width ∧ 0 < exImageItem.stretch_size.height then
             [(.pushImage (DisplayItem.Image exImageItem).prim_info exImageItem.stretch_size
               exImageItem.tile_spacing exImageItem.image_rendering id)]
           else []
         | none => []) :=
  claim_C6 false [exNode] exImageItem (initialState exDL1 0) (rootClipAndScrollInfo 0) rfl

/-- C7: a Border item with plain or image details passes them through verbatim
    into a single border emission; gradient details first register their stop
    list, obtaining one gradient handle (the next free one), then emit exactly
    one border primitive referencing that handle with the outset preserved, in
    that order. -/
theorem claim_C7 (d : Bool) (nodes : List ClipScrollNode) (item : BorderDisplayItem)
    (s : ConvState) (m : ClipAndScrollInfo)
    (hm : resolveContext s.clipIds (DisplayItem.Border item).base = .ok m) :
    ∃ s2, convertItem d nodes (.Border item) s = .ok s2 ∧
      s2.clipIds = s.clipIds ∧
      s2.builder.cmds = (s.builder.cmds ++ switchCmds s.current m) ++
        (match item.details with
         | .Normal border =>
           [(.pushBorder (DisplayItem.Border item).prim_info item.border_widths
             (.Normal border))]
         | .Image image =>
           [(.pushBorder (DisplayItem.Border item).prim_info item.border_widths
             (.Image image))]
         | .Gradient g =>
           [(.createGradient g.gradient.start_point g.gradient.end_point g.gradient.stops
             g.gradient.extend_mode s.builder.next_gradient_id),
            (.pushBorder (DisplayItem.Border item).prim_info item.border_widths
             (.Gradient s.builder.next_gradient_id g.outset))]
         | .RadialGradient g =>
           [(.createRadialGradient g.gradient.center g.gradient.radius g.gradient.stops
             g.gradient.extend_mode s.builder.next_gradient_id),
            (.pushBorder (DisplayItem.Border item).prim_info item.border_widths
             (.RadialGradient s.builder.next_gradient_id g.outset))]) := by
  unfold convertItem
  simp only [hm, translateItem]
  cases hd : item.details with
  | Normal border =>
    refine ⟨_, rfl, applySwitch_clipIds m s, ?_⟩
    simp [DisplayListBuilder.emit, applySwitch_cmds]
  | Image image =>
    refine ⟨_, rfl, applySwitch_clipIds m s, ?_⟩
    simp [DisplayListBuilder.emit, applySwitch_cmds]
  | Gradient g =>
    refine ⟨_, rfl, applySwitch_clipIds m s, ?_⟩
    simp [DisplayListBuilder.emit, DisplayListBuilder.create_gradient, applySwitch_cmds,
      applySwitch_gradient_id, List.append_assoc]
  | RadialGradient g =>
    refine ⟨_, rfl, applySwitch_clipIds m s, ?_⟩
    simp [DisplayListBuilder.emit, DisplayListBuilder.create_radial_gradient,
      applySwitch_cmds, applySwitch_gradient_id, List.append_assoc]

/-- An example gradient-border item. -/
def exBorderItem : BorderDisplayItem :=
  { base := exBase
    border_widths := 3
    details := .Gradient ⟨⟨⟨0, 0⟩, ⟨1, 0⟩, [4, 5], 0⟩, 9⟩ }

/-- Witness for C7 at a concrete gradient-border item. -/
theorem claim_C7_witness :
    ∃ s2, convertItem false [exNode] (.Border exBorderItem) (initialState exDL1 0) = .ok s2 ∧
      s2.clipIds = (initialState exDL1 0).clipIds ∧
      s2.builder.cmds = ((initialState exDL1 0).builder.cmds ++
        switchCmds (initialState exDL1 0).current (rootClipAndScrollInfo 0)) ++
        (match exBorderItem.details with
         | .Normal border =>
           [(.pushBorder (DisplayItem.Border exBorderItem).prim_info
             exBorderItem.border_widths (.Normal border))]
         | .Image image =>
           [(.pushBorder (DisplayItem.Border exBorderItem).prim_info
             exBorderItem.border_widths (.Image image))]
         | .Gradient g =>
           [(.createGradient g.gradient.start_point g.gradient.end_point g.gradient.stops
             g.gradient.extend_mode (initialState exDL1 0).builder.next_gradient_id),
            (.pushBorder (DisplayItem.Border exBorderItem).prim_info
             exBorderItem.border_widths
             (.Gradient (initialState exDL1 0).builder.next_gradient_id g.outset))]
         | .RadialGradient g =>
           [(.createRadialGradient g.gradient.center g.gradient.radius g.gradient.stops
             g.gradient.extend_mode (initialState exDL1 0).builder.next_gradient_id),
            (.pushBorder (DisplayItem.Border exBorderItem).prim_info
             exBorderItem.border_widths
             (.RadialGradient (initialState exDL1 0).builder.next_gradient_id g.outset))]) :=
  claim_C7 false [exNode] exBorderItem (initialState exDL1 0) (rootClipAndScrollInfo 0) rfl

/-- C9: a Line item emits exactly one decorative line primitive whose
    thickness is the ceiling of 0.33 times the item bounding-rect height in
    pixels, whose orientation is fixed horizontal, and whose color and style
    are passed through unchanged. -/
theorem claim_C9 (d : Bool) (nodes : List ClipScrollNode) (item : LineDisplayItem)
    (s : ConvState) (m : ClipAndScrollInfo)
    (hm : resolveContext s.clipIds (DisplayItem.Line item).base = .ok m) :
    ∃ s2, convertItem d nodes (.Line item) s = .ok s2 ∧
      s2.clipIds = s.clipIds ∧
      s2.builder.cmds = (s.builder.cmds ++ switchCmds s.current m) ++
        [(.pushLine (DisplayItem.Line item).prim_info
          ((⌈(0.33 : Rat) * auToPx item.base.bounds.size.height⌉ : Int) : Rat)
          .Horizontal item.color item.style)] := by
  unfold convertItem
  simp only [hm, translateItem]
  refine ⟨_, rfl, applySwitch_clipIds m s, ?_⟩
  simp [DisplayListBuilder.emit, applySwitch_cmds]

/-- An example line item of height 120 app units (2 pixels). -/
def exLineItem : LineDisplayItem :=
  { base :=
    { bounds := ⟨zeroPointAu, ⟨0, 120⟩⟩
      local_clip := .rect zeroRectL
      metadata := ⟨0, none⟩
      clipping_and_scrolling := ⟨0, none⟩ }
    color := 2
    style := 5 }

/-- Witness for C9 at a concrete line item. -/
theorem claim_C9_witness :
    ∃ s2, convertItem false [exNode] (.Line exLineItem) (initialState exDL1 0) = .ok s2 ∧
      s2.clipIds = (initialState exDL1 0).clipIds ∧
      s2.builder.cmds = ((initialState exDL1 0).builder.cmds ++
        switchCmds (initialState exDL1 0).current (rootClipAndScrollInfo 0)) ++
        [(.pushLine (DisplayItem.Line exLineItem).prim_info
          ((⌈(0.33 : Rat) * auToPx exLineItem.base.bounds.size.height⌉ : Int) : Rat)
          .Horizontal exLineItem.color exLineItem.style)] :=
  claim_C9 false [exNode] exLineItem (initialState exDL1 0) (rootClipAndScrollInfo 0) rfl

/-- C5: a PushStackingContext item passing translation in a debug build has a
    Real stacking context; a non-Real (grouping-only pseudo) stacking context
    reaching translation in a debug build is a fatal assertion failure. -/
theorem claim_C5 (nodes : List ClipScrollNode) (item : PushStackingContextItem)
    (s : ConvState) :
    (∀ s2, convertItem true nodes (.PushStackingContext item) s = .ok s2 →
      item.stacking_context.context_type = .Real) ∧
    (∀ m, resolveContext s.clipIds (DisplayItem.PushStackingContext item).base = .ok m →
      item.stacking_context.context_type ≠ .Real →
      convertItem true nodes (.PushStackingContext item) s = .error .assertFailed) := by
  constructor
  · intro s2 h
    by_contra hne
    unfold convertItem at h
    cases hr : resolveContext s.clipIds (DisplayItem.PushStackingContext item).base with
    | error e =>
      rw [hr] at h
      exact Except.noConfusion h
    | ok m =>
      rw [hr] at h
      simp only [translateItem] at h
      rw [if_pos ⟨trivial, hne⟩] at h
      exact Except.noConfusion h
  · intro m hm hne
    unfold convertItem
    rw [hm]
    simp only [translateItem]
    rw [if_pos ⟨trivial, hne⟩]

/-- An example grouping-only pseudo stacking context item. -/
def exPseudoSC : PushStackingContextItem :=
  { base := exBase
    stacking_context :=
      { context_type := .PseudoPositioned
        bounds := zeroRectAu
        scroll_policy := 0
        transform := none
        transform_style := 0
        perspective := none
        mix_blend_mode := 0
        filters := [] } }

/-- Witness for C5: a pseudo stacking context aborts a debug conversion. -/
theorem claim_C5_witness :
    convertItem true [exNode] (.PushStackingContext exPseudoSC) (initialState exDL1 0) =
      .error .assertFailed :=
  (claim_C5 [exNode] exPseudoSC (initialState exDL1 0)).2 (rootClipAndScrollInfo 0) rfl
    (by decide)

theorem allocIdOfNode_applySwitch (m : ClipAndScrollInfo) (s : ConvState)
    (node : ClipScrollNode) :
    allocIdOfNode (applySwitch m s).builder node = allocIdOfNode s.builder node := by
  cases hid : node.id <;> simp [allocIdOfNode, hid, applySwitch_node_id]

/-- C8: a DefineClipScrollNode item for a StickyFrame node pushes the parent
    backend id as the active clip context, defines the sticky frame with the
    node margins, both offset bounds and a zero initial applied offset, then
    pops the pushed context, restoring the clip stack that was in effect
    before the sticky workaround (hence, when no context switch fired, exactly
    the stack active before the item); the returned id is stored at the node
    index of the resolution table. -/
theorem claim_C8 (d : Bool) (nodes : List ClipScrollNode)
    (item : DefineClipScrollNodeItem) (s : ConvState) (m : ClipAndScrollInfo)
    (node : ClipScrollNode) (data : StickyFrameData) (parent_id : ClipId)
    (hm : resolveContext s.clipIds (DisplayItem.DefineClipScrollNode item).base = .ok m)
    (hn : nodes.get? item.node_index = some node)
    (hty : node.node_type = .StickyFrame data)
    (hp : get_id s.clipIds node.parent_index = .ok parent_id)
    (hlt : item.node_index < s.clipIds.length) :
    ∃ s2, convertItem d nodes (.DefineClipScrollNode item) s = .ok s2 ∧
      s2.builder.cmds = (s.builder.cmds ++ switchCmds s.current m) ++
        [(.pushClipId parent_id),
         (.defineStickyFrame (allocIdOfNode s.builder node) node.clip.main.to_layout
           data.margins data.vertical_offset_bounds data.horizontal_offset_bounds ⟨0, 0⟩),
         .popClipId] ∧
      s2.builder.clip_stack = (applySwitch m s).builder.clip_stack ∧
      (m = s.current → s2.builder.clip_stack = s.builder.clip_stack) ∧
      s2.clipIds = s.clipIds.set item.node_index (some (allocIdOfNode s.builder node)) := by
  unfold convertItem
  simp only [hm, translateItem, hn, hp, applySwitch_clipIds]
  obtain ⟨hid, hcmds, hstack, -⟩ :=
    defineNodeBuilder_spec (applySwitch m s).builder node parent_id
  have hcons := defineNodeBuilder_id_consistent (applySwitch m s).builder node parent_id
  have hnneg : ¬(d = true ∧ ¬(node.id = none ∨
      node.id = some (defineNodeBuilder (applySwitch m s).builder node parent_id).2)) :=
    fun hAnd => hAnd.2 hcons
  simp only [if_neg hnneg, if_pos hlt]
  refine ⟨_, rfl, ?_, ?_, ?_, ?_⟩
  · rw [hcmds, applySwitch_cmds]
    simp only [defineNodeCmds, hty, hid, allocIdOfNode_applySwitch]
  · exact hstack
  · intro heq
    rw [hstack, applySwitch_clip_stack, if_pos heq]
  · rw [hid, allocIdOfNode_applySwitch]

/-- A sticky frame node whose parent is the root node. -/
def exStickyNode : ClipScrollNode :=
  { id := none
    parent_index := 0
    clip := ⟨zeroRectAu, []⟩
    content_rect := zeroRectL
    node_type := .StickyFrame ⟨1, 2, 3⟩ }

/-- A display list defining the sticky node as node index 1. -/
def exDL3 : DisplayList :=
  ⟨zeroRectAu, [.DefineClipScrollNode ⟨exBase, 1⟩], [exNode, exStickyNode]⟩

/-- Witness for C8 at a concrete sticky-frame definition. -/
theorem claim_C8_witness :
    ∃ s2, convertItem false [exNode, exStickyNode] (.DefineClipScrollNode ⟨exBase, 1⟩)
        (initialState exDL3 0) = .ok s2 ∧
      s2.builder.cmds = ((initialState exDL3 0).builder.cmds ++
        switchCmds (initialState exDL3 0).current (rootClipAndScrollInfo 0)) ++
        [(.pushClipId (ClipId.root_scroll_node 0)),
         (.defineStickyFrame (allocIdOfNode (initialState exDL3 0).builder exStickyNode)
           exStickyNode.clip.main.to_layout (1 : Nat) (2 : Nat) (3 : Nat) ⟨0, 0⟩),
         .popClipId] ∧
      s2.builder.clip_stack =
        (applySwitch (rootClipAndScrollInfo 0) (initialState exDL3 0)).builder.clip_stack ∧
      (rootClipAndScrollInfo 0 = (initialState exDL3 0).current →
        s2.builder.clip_stack = (initialState exDL3 0).builder.clip_stack) ∧
      s2.clipIds = (initialState exDL3 0).clipIds.set 1
        (some (allocIdOfNode (initialState exDL3 0).builder exStickyNode)) :=
  claim_C8 false [exNode, exStickyNode] ⟨exBase, 1⟩ (initialState exDL3 0)
    (rootClipAndScrollInfo 0) exStickyNode ⟨1, 2, 3⟩ (ClipId.root_scroll_node 0)
    rfl rfl rfl rfl (by decide)

/-- The total advance of a glyph run: every glyph advances by its advance,
    with the extra word spacing added for inter-word space glyphs. -/
def glyphRunAdvance (extra : Au) (slices : List GlyphSlice) : Au :=
  (slices.map (fun sl => (sl.glyphs.map (glyphAdvance extra)).sum)).sum

/-- The number of glyphs lying in slices that are not entirely whitespace. -/
def nonWhitespaceGlyphCount (slices : List GlyphSlice) : Nat :=
  ((slices.filter (fun sl => !sl.is_whitespace)).map (fun sl => sl.glyphs.length)).sum

theorem nonWhitespaceGlyphCount_cons (sl : GlyphSlice) (rest : List GlyphSlice) :
    nonWhitespaceGlyphCount (sl :: rest) =
      (if sl.is_whitespace then 0 else sl.glyphs.length) +
        nonWhitespaceGlyphCount rest := by
  cases hw : sl.is_whitespace <;> simp [nonWhitespaceGlyphCount, List.filter, hw]

/-- The inner glyph loop advances the x cursor by the sum of the glyph
    advances, never moves the y cursor, and appends one glyph instance per
    glyph unless the slice is entirely whitespace. -/
theorem layoutSliceGlyphs_spec (extra : Au) (ws : Bool) :
    ∀ (gs : List GlyphData) (origin : PointAu) (acc : List GlyphInstance),
    (layoutSliceGlyphs extra ws gs origin acc).1.x =
      origin.x + (gs.map (glyphAdvance extra)).sum ∧
    (layoutSliceGlyphs extra ws gs origin acc).1.y = origin.y ∧
    (layoutSliceGlyphs extra ws gs origin acc).2.length =
      acc.length + (if ws then 0 else gs.length)
  | [], origin, acc => by simp [layoutSliceGlyphs]
  | g :: rest, origin, acc => by
    cases ws with
    | true =>
      obtain ⟨ih1, ih2, ih3⟩ := layoutSliceGlyphs_spec extra true rest
        ⟨origin.x + glyphAdvance extra g, origin.y⟩ acc
      simp only [layoutSliceGlyphs, if_pos trivial, ite_true]
      refine ⟨?_, ?_, ?_⟩
      · rw [ih1]
        simp [List.sum_cons]
        ring
      · rw [ih2]
      · rw [ih3]
        simp
    | false =>
      obtain ⟨ih1, ih2, ih3⟩ := layoutSliceGlyphs_spec extra false rest
        ⟨origin.x + glyphAdvance extra g, origin.y⟩
        (acc ++ [⟨g.id, ⟨auToPx (origin.x + (g.offset.getD ⟨0, 0⟩).x),
          auToPx (origin.y + (g.offset.getD ⟨0, 0⟩).y)⟩⟩])
      simp only [layoutSliceGlyphs, ite_false, Bool.false_eq_true]
      refine ⟨?_, ?_, ?_⟩
      · rw [ih1]
        simp [List.sum_cons]
        ring
      · rw [ih2]
      · rw [ih3]
        simp
        omega

/-- The slice loop advances the x cursor by the total run advance, never
    moves the y cursor, and appends exactly one glyph instance per glyph of
    the non-whitespace slices. -/
theorem layoutSlices_spec (extra : Au) :
    ∀ (slices : List GlyphSlice) (origin : PointAu) (acc : List GlyphInstance),
    (layoutSlices extra slices origin acc).1.x =
      origin.x + glyphRunAdvance extra slices ∧
    (layoutSlices extra slices origin acc).1.y = origin.y ∧
    (layoutSlices extra slices origin acc).2.length =
      acc.length + nonWhitespaceGlyphCount slices
  | [], origin, acc => by
    simp [layoutSlices, glyphRunAdvance, nonWhitespaceGlyphCount]
  | sl :: rest, origin, acc => by
    simp only [layoutSlices]
    obtain ⟨is1, is2, is3⟩ :=
      layoutSliceGlyphs_spec extra sl.is_whitespace sl.glyphs origin acc
    obtain ⟨ih1, ih2, ih3⟩ := layoutSlices_spec extra rest
      (layoutSliceGlyphs extra sl.is_whitespace sl.glyphs origin acc).1
      (layoutSliceGlyphs extra sl.is_whitespace sl.glyphs origin acc).2
    refine ⟨?_, ?_, ?_⟩
    · rw [ih1, is1]
      simp [glyphRunAdvance, List.sum_cons]
      ring
    · rw [ih2, is2]
    · rw [ih3, is3, nonWhitespaceGlyphCount_cons]
      cases hw : sl.is_whitespace <;> (simp [hw]; try omega)

/-- C3: translating a Text item pushes exactly one glyph instance per glyph of
    the non-whitespace slices (N of them), emits exactly one text-run
    primitive carrying them when N is positive and nothing when N is zero, and
    the cursor advances horizontally by the advance of every glyph, whitespace
    slices included, with the extra word spacing added for space glyphs; the
    vertical cursor never moves. -/
theorem claim_C3 (d : Bool) (nodes : List ClipScrollNode) (item : TextDisplayItem)
    (s : ConvState) (m : ClipAndScrollInfo)
    (hm : resolveContext s.clipIds (DisplayItem.Text item).base = .ok m) :
    (layoutSlices item.text_run.extra_word_spacing item.text_run.slices
      item.baseline_origin []).2.length = nonWhitespaceGlyphCount item.text_run.slices ∧
    (layoutSlices item.text_run.extra_word_spacing item.text_run.slices
      item.baseline_origin []).1.x = item.baseline_origin.x +
        glyphRunAdvance item.text_run.extra_word_spacing item.text_run.slices ∧
    (layoutSlices item.text_run.extra_word_spacing item.text_run.slices
      item.baseline_origin []).1.y = item.baseline_origin.y ∧
    ∃ s2, convertItem d nodes (.Text item) s = .ok s2 ∧ s2.clipIds = s.clipIds ∧
      s2.builder.cmds = (s.builder.cmds ++ switchCmds s.current m) ++
        (if 0 < nonWhitespaceGlyphCount item.text_run.slices then
          [(.pushText (DisplayItem.Text item).prim_info
            (layoutSlices item.text_run.extra_word_spacing item.text_run.slices
              item.baseline_origin []).2 item.text_run.font_key item.text_color none)]
         else []) := by
  obtain ⟨hx, hy, hlen⟩ := layoutSlices_spec item.text_run.extra_word_spacing
    item.text_run.slices item.baseline_origin []
  have hlen2 : (layoutSlices item.text_run.extra_word_spacing item.text_run.slices
      item.baseline_origin []).2.length = nonWhitespaceGlyphCount item.text_run.slices := by
    rw [hlen]
    simp
  refine ⟨hlen2, hx, hy, ?_⟩
  unfold convertItem
  simp only [hm, translateItem, hlen2]
  by_cases hN : 0 < nonWhitespaceGlyphCount item.text_run.slices
  · simp only [if_pos hN]
    refine ⟨_, rfl, applySwitch_clipIds m s, ?_⟩
    simp [DisplayListBuilder.emit, applySwitch_cmds]
  · simp only [if_neg hN]
    refine ⟨applySwitch m s, rfl, applySwitch_clipIds m s, ?_⟩
    rw [applySwitch_cmds]
    simp

/-- An example glyph with a given id, an advance of 60 app units, and the
    space flag as given. -/
def exGlyph (id : Nat) (sp : Bool) : GlyphData := ⟨id, 60, none, sp⟩

/-- An example text item: one non-whitespace slice of two glyphs (one of them
    an inter-word space) followed by one entirely-whitespace slice. -/
def exTextItem : TextDisplayItem :=
  { base := exBase
    text_run :=
      { slices := [⟨[exGlyph 10 false, exGlyph 11 true], false⟩, ⟨[exGlyph 12 true], true⟩]
        font_key := 1
        extra_word_spacing := 6 }
    baseline_origin := ⟨0, 0⟩
    text_color := 3 }

/-- Witness for C3 at a concrete text item. -/
theorem claim_C3_witness :
    (layoutSlices exTextItem.text_run.extra_word_spacing exTextItem.text_run.slices
      exTextItem.baseline_origin []).2.length =
        nonWhitespaceGlyphCount exTextItem.text_run.slices ∧
    (layoutSlices exTextItem.text_run.extra_word_spacing exTextItem.text_run.slices
      exTextItem.baseline_origin []).1.x = exTextItem.baseline_origin.x +
        glyphRunAdvance exTextItem.text_run.extra_word_spacing exTextItem.text_run.slices ∧
    (layoutSlices exTextItem.text_run.extra_word_spacing exTextItem.text_run.slices
      exTextItem.baseline_origin []).1.y = exTextItem.baseline_origin.y ∧
    ∃ s2, convertItem false [exNode] (.Text exTextItem) (initialState exDL1 0) = .ok s2 ∧
      s2.clipIds = (initialState exDL1 0).clipIds ∧
      s2.builder.cmds = ((initialState exDL1 0).builder.cmds ++
        switchCmds (initialState exDL1 0).current (rootClipAndScrollInfo 0)) ++
        (if 0 < nonWhitespaceGlyphCount exTextItem.text_run.slices then
          [(.pushText (DisplayItem.Text exTextItem).prim_info
            (layoutSlices exTextItem.text_run.extra_word_spacing exTextItem.text_run.slices
              exTextItem.baseline_origin []).2 exTextItem.text_run.font_key
            exTextItem.text_color none)]
         else []) :=
  claim_C3 false [exNode] exTextItem (initialState exDL1 0) (rootClipAndScrollInfo 0) rfl

/-- Along a successful run, a table entry is filled exactly when it was filled
    at the start or one of the processed items defines its index. -/
theorem runItems_filled_iff (d : Bool) (nodes : List ClipScrollNode) :
    ∀ (items : List DisplayItem) (s s2 : ConvState),
    runItems d nodes items s = .ok s2 → ∀ i : Nat,
    ((∃ v, s2.clipIds.get? i = some (some v)) ↔
      ((∃ v, s.clipIds.get? i = some (some v)) ∨ ∃ it ∈ items, defineIndex it = some i))
  | [], s, s2, h, i => by
    simp only [runItems, Except.ok.injEq] at h
    subst h
    simp
  | it :: rest, s, s2, h, i => by
    simp only [runItems] at h
    cases hc : convertItem d nodes it s with
    | error e =>
      rw [hc] at h
      exact Except.noConfusion h
    | ok s1 =>
      rw [hc] at h
      obtain ⟨m, hm⟩ := convertItem_ok_resolves d nodes it s s1 hc
      obtain ⟨-, -, -, hclip⟩ := convertItem_ok_spec d nodes it s s1 m hm hc
      have ih := runItems_filled_iff d nodes rest s1 s2 h i
      cases hd : defineIndex it with
      | none =>
        rw [hd] at hclip
        rw [ih, hclip]
        constructor
        · rintro (hs | ⟨it2, h2, h3⟩)
          · exact Or.inl hs
          · exact Or.inr ⟨it2, List.mem_cons_of_mem it h2, h3⟩
        · rintro (hs | ⟨it2, h2, h3⟩)
          · exact Or.inl hs
          · rcases List.mem_cons.mp h2 with heq | hmem
            · subst heq
              rw [hd] at h3
              exact Option.noConfusion h3
            · exact Or.inr ⟨it2, hmem, h3⟩
      | some j =>
        rw [hd] at hclip
        obtain ⟨-, id, hjlt, hset⟩ := hclip
        rw [ih, hset]
        by_cases hij : i = j
        · subst hij
          rw [get?_set_self _ _ _ hjlt]
          constructor
          · intro _
            exact Or.inr ⟨it, List.mem_cons_self it rest, by rw [hd]⟩
          · intro _
            exact Or.inl ⟨id, rfl⟩
        · rw [get?_set_ne _ _ _ _ (fun hh => hij hh.symm)]
          constructor
          · rintro (hs | ⟨it2, h2, h3⟩)
            · exact Or.inl hs
            · exact Or.inr ⟨it2, List.mem_cons_of_mem it h2, h3⟩
          · rintro (hs | ⟨it2, h2, h3⟩)
            · exact Or.inl hs
            · rcases List.mem_cons.mp h2 with heq | hmem
              · subst heq
                rw [hd] at h3
                exact absurd (Option.some.inj h3) (fun hh => hij hh.symm)
              · exact Or.inr ⟨it2, hmem, h3⟩

/-- Along a successful run whose items never define index i, a filled table
    entry at i keeps its value. -/
theorem runItems_preserves_entry (d : Bool) (nodes : List ClipScrollNode) :
    ∀ (items : List DisplayItem) (s s2 : ConvState),
    runItems d nodes items s = .ok s2 → ∀ (i : Nat) (v : ClipId),
    s.clipIds.get? i = some (some v) →
    (∀ it ∈ items, defineIndex it ≠ some i) →
    s2.clipIds.get? i = some (some v)
  | [], s, s2, h, i, v, hv, _ => by
    simp only [runItems, Except.ok.injEq] at h
    subst h
    exact hv
  | it :: rest, s, s2, h, i, v, hv, hnd => by
    simp only [runItems] at h
    cases hc : convertItem d nodes it s with
    | error e =>
      rw [hc] at h
      exact Except.noConfusion h
    | ok s1 =>
      rw [hc] at h
      obtain ⟨m, hm⟩ := convertItem_ok_resolves d nodes it s s1 hc
      obtain ⟨-, -, -, hclip⟩ := convertItem_ok_spec d nodes it s s1 m hm hc
      have hv1 : s1.clipIds.get? i = some (some v) := by
        cases hd : defineIndex it with
        | none =>
          rw [hd] at hclip
          rw [hclip]
          exact hv
        | some j =>
          rw [hd] at hclip
          obtain ⟨-, id, hjlt, hset⟩ := hclip
          rw [hset]
          have hij : j ≠ i := fun hh =>
            hnd it (List.mem_cons_self it rest) (by rw [hd, hh])
          rw [get?_set_ne _ _ _ _ hij]
          exact hv
      exact runItems_preserves_entry d nodes rest s1 s2 h i v hv1
        (fun it2 h2 => hnd it2 (List.mem_cons_of_mem it h2))

/-- The shape of the freshly allocated resolution table: same length as the
    node array, entry 0 seeded with the root scroll id, every other in-range
    entry empty, and no entry other than 0 filled. -/
theorem initialClipIds_entries (dl : DisplayList) (pid : Nat)
    (hne : dl.clip_scroll_nodes ≠ []) :
    (initialClipIds dl pid).length = dl.clip_scroll_nodes.length ∧
    (initialClipIds dl pid).get? 0 = some (some (ClipId.root_scroll_node pid)) ∧
    (∀ i, 0 < i → i < dl.clip_scroll_nodes.length →
      (initialClipIds dl pid).get? i = some none) ∧
    (∀ i, i ≠ 0 → ¬∃ v, (initialClipIds dl pid).get? i = some (some v)) := by
  have hn : 0 < dl.clip_scroll_nodes.length := List.length_pos.mpr hne
  have hrep : ∀ i, (initialClipIds dl pid).get? i =
      if i = 0 then
        (if 0 < dl.clip_scroll_nodes.length
          then some (some (ClipId.root_scroll_node pid)) else none)
      else (List.replicate dl.clip_scroll_nodes.length (none : Option ClipId)).get? i := by
    intro i
    by_cases hi : i = 0
    · subst hi
      rw [if_pos rfl, if_pos hn]
      unfold initialClipIds
      exact get?_set_self _ 0 _ (by simpa using hn)
    · rw [if_neg hi]
      unfold initialClipIds
      exact get?_set_ne _ 0 i _ (fun hh => hi hh.symm)
  refine ⟨by simp [initialClipIds], ?_, ?_, ?_⟩
  · rw [hrep 0, if_pos rfl, if_pos hn]
  · intro i h0 hiln
    rw [hrep i, if_neg (by omega), get?_replicate, if_pos hiln]
  · intro i hi
    rintro ⟨v, hv⟩
    rw [hrep i, if_neg hi, get?_replicate] at hv
    by_cases hiln : i < dl.clip_scroll_nodes.length
    · rw [if_pos hiln] at hv
      exact Option.noConfusion (Option.some.inj hv)
    · rw [if_neg hiln] at hv
      exact Option.noConfusion hv

/-- C4: the resolution table is allocated with the node-array length, entry 0
    pre-seeded with the root scroll id and all other entries empty; the table
    is written only by DefineClipScrollNode items, each at its own node index;
    and, provided each node index has at most one defining item and the root
    index none (as a tree presupposes), along any successful run a non-root
    entry is filled exactly when its defining item has been processed, entry 0
    always holds the root id, and a filled entry keeps its value for the rest
    of the traversal. -/
theorem claim_C4 (dl : DisplayList) (pid : Nat)
    (hne : dl.clip_scroll_nodes ≠ [])
    (hnodup : (dl.list.filterMap defineIndex).Nodup)
    (hroot : 0 ∉ dl.list.filterMap defineIndex) :
    ((initialClipIds dl pid).length = dl.clip_scroll_nodes.length ∧
     (initialClipIds dl pid).get? 0 = some (some (ClipId.root_scroll_node pid)) ∧
     (∀ i, 0 < i → i < dl.clip_scroll_nodes.length →
       (initialClipIds dl pid).get? i = some none)) ∧
    (∀ (d : Bool) (nodes : List ClipScrollNode) (it : DisplayItem) (s s2 : ConvState),
      convertItem d nodes it s = .ok s2 →
      (match defineIndex it with
       | some j => ∃ id, j < s.clipIds.length ∧ s2.clipIds = s.clipIds.set j (some id)
       | none => s2.clipIds = s.clipIds)) ∧
    (∀ (d : Bool) (p q : List DisplayItem) (s_p : ConvState), dl.list = p ++ q →
      runItems d dl.clip_scroll_nodes p (initialState dl pid) = .ok s_p →
      s_p.clipIds.get? 0 = some (some (ClipId.root_scroll_node pid)) ∧
      (∀ i, i ≠ 0 →
        ((∃ v, s_p.clipIds.get? i = some (some v)) ↔
          ∃ it ∈ p, defineIndex it = some i)) ∧
      (∀ (i : Nat) (v : ClipId), s_p.clipIds.get? i = some (some v) →
        ∀ (q1 q2 : List DisplayItem) (s_q : ConvState), q = q1 ++ q2 →
          runItems d dl.clip_scroll_nodes q1 s_p = .ok s_q →
          s_q.clipIds.get? i = some (some v))) := by
  obtain ⟨hlen, h0, hmid, hnot⟩ := initialClipIds_entries dl pid hne
  refine ⟨⟨hlen, h0, hmid⟩, ?_, ?_⟩
  · intro d nodes it s s2 hok
    obtain ⟨m, hm⟩ := convertItem_ok_resolves d nodes it s s2 hok
    obtain ⟨-, -, -, hclip⟩ := convertItem_ok_spec d nodes it s s2 m hm hok
    cases hd : defineIndex it with
    | none =>
      rw [hd] at hclip
      simp only [hd]
      exact hclip
    | some j =>
      rw [hd] at hclip
      simp only [hd]
      obtain ⟨-, id, h1, h2⟩ := hclip
      exact ⟨id, h1, h2⟩
  · intro d p q s_p hpq hrun
    have hinit : (initialState dl pid).clipIds = initialClipIds dl pid := rfl
    have hnd0 : ∀ it ∈ p, defineIndex it ≠ some 0 := by
      intro it hmem hdef
      exact hroot (by
        rw [hpq]
        exact List.mem_filterMap.mpr ⟨it, List.mem_append_left q hmem, hdef⟩)
    refine ⟨?_, ?_, ?_⟩
    · exact runItems_preserves_entry d dl.clip_scroll_nodes p (initialState dl pid) s_p
        hrun 0 (ClipId.root_scroll_node pid) (by rw [hinit]; exact h0) hnd0
    · intro i hi
      have hiff := runItems_filled_iff d dl.clip_scroll_nodes p (initialState dl pid)
        s_p hrun i
      rw [hinit] at hiff
      constructor
      · intro hfill
        rcases hiff.mp hfill with hstart | hdef
        · exact absurd hstart (hnot i hi)
        · exact hdef
      · intro hdef
        exact hiff.mpr (Or.inr hdef)
    · intro i v hfill q1 q2 s_q hq hrunq
      have hndq : ∀ it ∈ q1, defineIndex it ≠ some i := by
        intro it2 hmem hdef
        by_cases hi0 : i = 0
        · subst hi0
          exact hroot (by
            rw [hpq, hq]
            exact List.mem_filterMap.mpr ⟨it2,
              List.mem_append_right p (List.mem_append_left q2 hmem), hdef⟩)
        · have hiff := runItems_filled_iff d dl.clip_scroll_nodes p (initialState dl pid)
            s_p hrun i
          rw [hinit] at hiff
          rcases hiff.mp ⟨v, hfill⟩ with hstart | ⟨itp, hmemp, hdefp⟩
          · exact absurd hstart (hnot i hi0)
          · have hnodup2 := hnodup
            rw [hpq, List.filterMap_append] at hnodup2
            have hdisj := (List.nodup_append.mp hnodup2).2.2
            exact hdisj (List.mem_filterMap.mpr ⟨itp, hmemp, hdefp⟩)
              (by
                rw [hq, List.filterMap_append]
                exact List.mem_append_left _ (List.mem_filterMap.mpr ⟨it2, hmem, hdef⟩))
      exact runItems_preserves_entry d dl.clip_scroll_nodes q1 s_p s_q hrunq i v
        hfill hndq

/-- Witness for C4 at a concrete list with one defining item. -/
theorem claim_C4_witness :
    ((initialClipIds exDL3 0).length = exDL3.clip_scroll_nodes.length ∧
     (initialClipIds exDL3 0).get? 0 = some (some (ClipId.root_scroll_node 0)) ∧
     (∀ i, 0 < i → i < exDL3.clip_scroll_nodes.length →
       (initialClipIds exDL3 0).get? i = some none)) ∧
    (∀ (d : Bool) (nodes : List ClipScrollNode) (it : DisplayItem) (s s2 : ConvState),
      convertItem d nodes it s = .ok s2 →
      (match defineIndex it with
       | some j => ∃ id, j < s.clipIds.length ∧ s2.clipIds = s.clipIds.set j (some id)
       | none => s2.clipIds = s.clipIds)) ∧
    (∀ (d : Bool) (p q : List DisplayItem) (s_p : ConvState), exDL3.list = p ++ q →
      runItems d exDL3.clip_scroll_nodes p (initialState exDL3 0) = .ok s_p →
      s_p.clipIds.get? 0 = some (some (ClipId.root_scroll_node 0)) ∧
      (∀ i, i ≠ 0 →
        ((∃ v, s_p.clipIds.get? i = some (some v)) ↔
          ∃ it ∈ p, defineIndex it = some i)) ∧
      (∀ (i : Nat) (v : ClipId), s_p.clipIds.get? i = some (some v) →
        ∀ (q1 q2 : List DisplayItem) (s_q : ConvState), q = q1 ++ q2 →
          runItems d exDL3.clip_scroll_nodes q1 s_p = .ok s_q →
          s_q.clipIds.get? i = some (some v))) :=
  claim_C4 exDL3 0 (by simp [exDL3]) (by decide) (by decide)
